import Mathlib

/-!
Shallow embedding of the workflow state machine and sequencing/dispatch engine
of the data-enrichment-orchestration repository.

The embedding models the `workflow_states` table as a list of rows, and the
store primitives of `src/orchestrator.py` (`update_state_to_queued`,
`mark_state_as_advanced`, `spawn_next_step`, `fetch_completed_for_advancement`,
`fetch_pending_items`, `get_batch_blueprint`) together with the two flows
`advance_completed_items` (the Sequencer tick) and `dispatch_pending_items`
(the Dispatcher tick), and the entity-coalescing sender
`start_enrich_company_via_waterfall_in_clay` of `src/worker.py`.

SQL conditional updates become conditional maps over the row list; SQL
`ORDER BY updated_at ASC ... LIMIT n` becomes a stable insertion sort followed
by `take`; `ON CONFLICT DO NOTHING` / `DO UPDATE` become membership-tested
insert / map.  Timestamps and uuids are modelled as natural numbers supplied by
the caller; I/O side effects (Modal spawns, webhook posts) are recorded as
traces in the return value, with their success decided by oracle parameters.
-/

namespace Orchestration

/-- Status vocabulary of `WorkflowStatus` in `src/db/models.py`. -/
inductive WorkflowStatus where
  | PENDING
  | QUEUED
  | IN_PROGRESS
  | COMPLETED
  | FAILED
deriving DecidableEq, Repr

/-- Metadata annotation (`meta` JSONB column), modelled as key/value pairs. -/
abbrev Meta : Type := List (String × String)

/-- One row of the `workflow_states` table (`WorkflowState` in
`src/db/models.py`): unique key (batch_id, item_id, step_name), a status,
an `updated_at` timestamp, a nullable `advanced_at`, and optional meta. -/
structure WorkflowState where
  id : Nat
  batch_id : Nat
  item_id : Nat
  step_name : String
  status : WorkflowStatus
  updated_at : Nat
  advanced_at : Option Nat
  meta : Option Meta
deriving DecidableEq

open WorkflowStatus

/-- The database of workflow states. -/
abbrev StateDB := List WorkflowState

/-- `update_state_to_queued` (src/orchestrator.py:80-104):
`UPDATE workflow_states SET status='QUEUED', updated_at=now
WHERE id = wsid AND status='PENDING'`; returns whether a row changed. -/
def update_state_to_queued (db : StateDB) (wsid : Nat) (now : Nat) :
    StateDB × Bool :=
  (db.map fun ws =>
    if ws.id = wsid ∧ ws.status = PENDING then
      { ws with status := QUEUED, updated_at := now }
    else ws,
   db.any fun ws => decide (ws.id = wsid ∧ ws.status = PENDING))

/-- `mark_state_as_advanced` (src/orchestrator.py:200-221):
`UPDATE workflow_states SET advanced_at=now
WHERE id = wsid AND advanced_at IS NULL`; returns whether a row changed. -/
def mark_state_as_advanced (db : StateDB) (wsid : Nat) (now : Nat) :
    StateDB × Bool :=
  (db.map fun ws =>
    if ws.id = wsid ∧ ws.advanced_at = none then
      { ws with advanced_at := some now }
    else ws,
   db.any fun ws => decide (ws.id = wsid ∧ ws.advanced_at = none))

/-- The key of the uniqueness constraint `uq_workflow_state`
(src/db/models.py:185-187): (batch_id, item_id, step_name). -/
def matches_triple (batch_id item_id : Nat) (step : String) (ws : WorkflowState) : Bool :=
  decide (ws.batch_id = batch_id ∧ ws.item_id = item_id ∧ ws.step_name = step)

/-- The fresh row inserted by `spawn_next_step`. -/
def mkSpawnRow (batch_id item_id : Nat) (next_step : String) (newid now : Nat) :
    WorkflowState :=
  { id := newid, batch_id := batch_id, item_id := item_id,
    step_name := next_step, status := PENDING, updated_at := now,
    advanced_at := none, meta := none }

/-- `spawn_next_step` (src/orchestrator.py:168-197):
`INSERT INTO workflow_states (...) VALUES (newid, batch, item, step,
'PENDING', now) ON CONFLICT (batch_id, item_id, step_name) DO NOTHING`;
returns whether a row was created.  The conflict target is the uniqueness
constraint `uq_workflow_state` of `src/db/models.py`. -/
def spawn_next_step (db : StateDB) (item_id batch_id : Nat) (next_step : String)
    (newid now : Nat) : StateDB × Bool :=
  if db.any (matches_triple batch_id item_id next_step) then
    (db, false)
  else
    (db ++ [mkSpawnRow batch_id item_id next_step newid now], true)

/-- Two rows of a DB whose ids are globally distinct and share an id are equal. -/
theorem ids_nodup_inj {db : StateDB} (h : (db.map fun ws => ws.id).Nodup)
    {a b : WorkflowState} (ha : a ∈ db) (hb : b ∈ db) (hid : a.id = b.id) :
    a = b := by
  by_contra hne
  have hp : db.Pairwise (fun x y => x.id ≠ y.id) := List.pairwise_map.mp h
  have hsymm : Symmetric (fun x y : WorkflowState => x.id ≠ y.id) :=
    fun x y hxy hyx => hxy hyx.symm
  exact (hp.forall hsymm ha hb hne) hid

/-- Membership in the database produced by `update_state_to_queued`. -/
theorem update_state_to_queued_mem {db : StateDB} {w now : Nat} {ws' : WorkflowState} :
    ws' ∈ (update_state_to_queued db w now).1 ↔
      ∃ ws ∈ db,
        ws' = if ws.id = w ∧ ws.status = PENDING
              then { ws with status := QUEUED, updated_at := now } else ws := by
  simp only [update_state_to_queued, List.mem_map]
  constructor
  · rintro ⟨ws, hws, rfl⟩; exact ⟨ws, hws, rfl⟩
  · rintro ⟨ws, hws, rfl⟩; exact ⟨ws, hws, rfl⟩

/-- If no row is a PENDING row with the given id, `update_state_to_queued`
is a no-op returning `false`. -/
theorem update_state_to_queued_noop {db : StateDB} {w now : Nat}
    (h : ∀ ws ∈ db, ¬(ws.id = w ∧ ws.status = PENDING)) :
    update_state_to_queued db w now = (db, false) := by
  unfold update_state_to_queued
  refine Prod.ext ?_ ?_
  · show db.map _ = db
    have := List.map_congr_left (l := db)
      (f := fun ws => if ws.id = w ∧ ws.status = PENDING
                      then { ws with status := QUEUED, updated_at := now } else ws)
      (g := id) (fun a ha => if_neg (h a ha))
    simpa using this
  · show db.any _ = false
    simp only [List.any_eq_false, decide_eq_true_eq]
    exact h

/-- C1: the claim operation `update_state_to_queued` returns true and moves the
row to QUEUED exactly when the row is currently PENDING; on a non-PENDING row
it returns false and leaves the database unchanged; consequently of two
successive claim attempts on an initially PENDING row exactly the first
returns true. -/
theorem C1_claim_pending_to_queued_cas
    (db : StateDB) (r : WorkflowState) (w now now2 : Nat)
    (hnodup : (db.map fun ws => ws.id).Nodup)
    (hr : r ∈ db) (hid : r.id = w) :
    ((update_state_to_queued db w now).2 = true ↔ r.status = PENDING)
    ∧ (r.status = PENDING →
        ∀ ws' ∈ (update_state_to_queued db w now).1, ws'.id = w →
          ws' = { r with status := QUEUED, updated_at := now })
    ∧ (r.status ≠ PENDING → update_state_to_queued db w now = (db, false))
    ∧ (r.status = PENDING →
        update_state_to_queued (update_state_to_queued db w now).1 w now2 =
          ((update_state_to_queued db w now).1, false)) := by
  have hmemQ : r.status = PENDING →
      ∀ ws' ∈ (update_state_to_queued db w now).1, ws'.id = w →
        ws' = { r with status := QUEUED, updated_at := now } := by
    intro hP ws' hmem hwid
    rcases update_state_to_queued_mem.mp hmem with ⟨ws, hws, hcase⟩
    by_cases hc : ws.id = w ∧ ws.status = PENDING
    · rw [if_pos hc] at hcase
      have : ws = r := ids_nodup_inj hnodup hws hr (hc.1.trans hid.symm)
      rw [hcase, this]
    · rw [if_neg hc] at hcase
      have hwid2 : ws.id = w := hcase ▸ hwid
      have hwr : ws = r := ids_nodup_inj hnodup hws hr (hwid2.trans hid.symm)
      exact absurd ⟨hwid2, by rw [hwr]; exact hP⟩ hc
  refine ⟨?_, hmemQ, ?_, ?_⟩
  · constructor
    · intro hany
      simp only [update_state_to_queued, List.any_eq_true, decide_eq_true_eq] at hany
      rcases hany with ⟨ws, hws, hwid, hP⟩
      have : ws = r := ids_nodup_inj hnodup hws hr (hwid.trans hid.symm)
      rw [← this]; exact hP
    · intro hP
      simp only [update_state_to_queued, List.any_eq_true, decide_eq_true_eq]
      exact ⟨r, hr, hid, hP⟩
  · intro hnP
    refine update_state_to_queued_noop (fun ws hws hc => ?_)
    have : ws = r := ids_nodup_inj hnodup hws hr (hc.1.trans hid.symm)
    exact hnP (by rw [← this]; exact hc.2)
  · intro hP
    refine update_state_to_queued_noop (fun ws' hws' hc => ?_)
    have := hmemQ hP ws' hws' hc.1
    rw [this] at hc
    exact absurd hc.2 (by simp)

/-- A sample PENDING row used to witness the claim theorems. -/
def sampleRowPending : WorkflowState :=
  { id := 0, batch_id := 0, item_id := 0, step_name := "step_a",
    status := PENDING, updated_at := 0, advanced_at := none, meta := none }

/-- Witness for C1 at a concrete one-row database. -/
theorem C1_claim_pending_to_queued_cas_witness :
    (update_state_to_queued [sampleRowPending] 0 5).2 = true :=
  (C1_claim_pending_to_queued_cas [sampleRowPending] sampleRowPending 0 5 7
    (by decide) (by decide) (by decide)).1.mpr (by decide)

/-- Membership in the database produced by `mark_state_as_advanced`. -/
theorem mark_state_as_advanced_mem {db : StateDB} {w now : Nat} {ws' : WorkflowState} :
    ws' ∈ (mark_state_as_advanced db w now).1 ↔
      ∃ ws ∈ db,
        ws' = if ws.id = w ∧ ws.advanced_at = none
              then { ws with advanced_at := some now } else ws := by
  simp only [mark_state_as_advanced, List.mem_map]
  constructor
  · rintro ⟨ws, hws, rfl⟩; exact ⟨ws, hws, rfl⟩
  · rintro ⟨ws, hws, rfl⟩; exact ⟨ws, hws, rfl⟩

/-- After `mark_state_as_advanced db w now`, every row with id `w` has a
non-null `advanced_at`. -/
theorem mark_state_as_advanced_sets {db : StateDB} {w now : Nat} :
    ∀ ws' ∈ (mark_state_as_advanced db w now).1, ws'.id = w →
      ws'.advanced_at ≠ none := by
  intro ws' hmem hwid
  rcases mark_state_as_advanced_mem.mp hmem with ⟨ws, _, hcase⟩
  by_cases hc : ws.id = w ∧ ws.advanced_at = none
  · rw [if_pos hc] at hcase; rw [hcase]; simp
  · rw [if_neg hc] at hcase
    subst hcase
    intro hnone
    exact hc ⟨hwid, hnone⟩

/-- If no row has id `w` with null `advanced_at`, `mark_state_as_advanced`
is a no-op returning `false`. -/
theorem mark_state_as_advanced_noop {db : StateDB} {w now : Nat}
    (h : ∀ ws ∈ db, ¬(ws.id = w ∧ ws.advanced_at = none)) :
    mark_state_as_advanced db w now = (db, false) := by
  unfold mark_state_as_advanced
  refine Prod.ext ?_ ?_
  · show db.map _ = db
    have := List.map_congr_left (l := db)
      (f := fun ws => if ws.id = w ∧ ws.advanced_at = none
                      then { ws with advanced_at := some now } else ws)
      (g := id) (fun a ha => if_neg (h a ha))
    simpa using this
  · show db.any _ = false
    simp only [List.any_eq_false, decide_eq_true_eq]
    exact h

/-- Sequential iteration of `mark_state_as_advanced` on the same row,
counting the calls that returned true. -/
def mark_iter (db : StateDB) (wsid : Nat) : List Nat → StateDB × Nat
  | [] => (db, 0)
  | t :: ts =>
    let r1 := mark_state_as_advanced db wsid t
    let r2 := mark_iter r1.1 wsid ts
    (r2.1, (if r1.2 then 1 else 0) + r2.2)

/-- Once every row with id `w` has non-null `advanced_at`, any further
sequence of `mark_state_as_advanced` calls changes nothing and all
return false. -/
theorem mark_iter_noop {db : StateDB} {w : Nat}
    (h : ∀ ws ∈ db, ws.id = w → ws.advanced_at ≠ none) :
    ∀ ts : List Nat, mark_iter db w ts = (db, 0) := by
  intro ts
  induction ts with
  | nil => rfl
  | cons t ts ih =>
    have hno : mark_state_as_advanced db w t = (db, false) :=
      mark_state_as_advanced_noop (fun ws hws hc => h ws hws hc.1 hc.2)
    simp [mark_iter, hno, ih]

/-- C2: on a row whose `advanced_at` is initially null, among any positive
number of `mark_state_as_advanced` calls exactly the first returns true and
sets `advanced_at`; the remaining calls return false and leave the database
(and hence `advanced_at`) unchanged: the whole iteration equals the result of
the first call with a true-count of one. -/
theorem C2_claim_mark_advanced_at_most_once
    (db : StateDB) (r : WorkflowState) (w t : Nat) (ts : List Nat)
    (hr : r ∈ db) (hid : r.id = w) (hadv : r.advanced_at = none) :
    mark_iter db w (t :: ts) = ((mark_state_as_advanced db w t).1, 1)
    ∧ (∃ ws' ∈ (mark_state_as_advanced db w t).1,
        ws'.id = w ∧ ws'.advanced_at = some t) := by
  have htrue : (mark_state_as_advanced db w t).2 = true := by
    simp only [mark_state_as_advanced, List.any_eq_true, decide_eq_true_eq]
    exact ⟨r, hr, hid, hadv⟩
  have hrest : mark_iter (mark_state_as_advanced db w t).1 w ts =
      ((mark_state_as_advanced db w t).1, 0) :=
    mark_iter_noop mark_state_as_advanced_sets ts
  constructor
  · simp [mark_iter, htrue, hrest]
  · refine ⟨{ r with advanced_at := some t }, ?_, hid, rfl⟩
    rw [mark_state_as_advanced_mem]
    exact ⟨r, hr, by rw [if_pos ⟨hid, hadv⟩]⟩

/-- Witness for C2 at a concrete one-row database and three calls. -/
theorem C2_claim_mark_advanced_at_most_once_witness :
    mark_iter [sampleRowPending] 0 [3, 4, 5] =
      ((mark_state_as_advanced [sampleRowPending] 0 3).1, 1) :=
  (C2_claim_mark_advanced_at_most_once [sampleRowPending] sampleRowPending 0 3 [4, 5]
    (by decide) (by decide) (by decide)).1

/-- Sequential iteration of `spawn_next_step` on the same triple, each call
with its own fresh id and timestamp, counting the calls that returned true. -/
def spawn_iter (db : StateDB) (item_id batch_id : Nat) (step : String) :
    List (Nat × Nat) → StateDB × Nat
  | [] => (db, 0)
  | p :: ps =>
    let r1 := spawn_next_step db item_id batch_id step p.1 p.2
    let r2 := spawn_iter r1.1 item_id batch_id step ps
    (r2.1, (if r1.2 then 1 else 0) + r2.2)

/-- Once some row matches the triple, any further sequence of
`spawn_next_step` calls inserts nothing and all return false. -/
theorem spawn_iter_noop {db : StateDB} {b i : Nat} {s : String}
    (h : db.any (matches_triple b i s) = true) :
    ∀ ps : List (Nat × Nat), spawn_iter db i b s ps = (db, 0) := by
  intro ps
  induction ps with
  | nil => rfl
  | cons p ps ih =>
    simp [spawn_iter, spawn_next_step, h, ih]

/-- C3: starting from a database with no row for the (batch, item, step)
triple, any positive number of `spawn_next_step` calls creates exactly one
row for the triple, with status PENDING; the first call returns true (it
created the row) and every later call returns false. -/
theorem C3_claim_insert_if_absent_idempotent
    (db : StateDB) (b i : Nat) (s : String) (p : Nat × Nat) (ps : List (Nat × Nat))
    (h0 : db.countP (matches_triple b i s) = 0) :
    spawn_iter db i b s (p :: ps) = (db ++ [mkSpawnRow b i s p.1 p.2], 1)
    ∧ (db ++ [mkSpawnRow b i s p.1 p.2]).countP (matches_triple b i s) = 1
    ∧ (mkSpawnRow b i s p.1 p.2).status = PENDING := by
  have hany : db.any (matches_triple b i s) = false := by
    rw [List.any_eq_false]
    intro ws hws
    have := List.countP_eq_zero.mp h0 ws hws
    simpa using this
  have hfirst : spawn_next_step db i b s p.1 p.2 =
      (db ++ [mkSpawnRow b i s p.1 p.2], true) := by
    simp [spawn_next_step, hany]
  have hmatch : matches_triple b i s (mkSpawnRow b i s p.1 p.2) = true := by
    simp [matches_triple, mkSpawnRow]
  have hany2 : (db ++ [mkSpawnRow b i s p.1 p.2]).any (matches_triple b i s) = true := by
    rw [List.any_eq_true]
    exact ⟨mkSpawnRow b i s p.1 p.2, by simp, hmatch⟩
  refine ⟨?_, ?_, rfl⟩
  · simp [spawn_iter, hfirst, spawn_iter_noop hany2 ps]
  · rw [List.countP_append, h0, List.countP_cons]
    simp [hmatch]

/-- Witness for C3 starting from the empty database with two calls. -/
theorem C3_claim_insert_if_absent_idempotent_witness :
    spawn_iter [] 2 1 "step_b" [(7, 8), (9, 10)] =
      ([mkSpawnRow 1 2 "step_b" 7 8], 1) :=
  (C3_claim_insert_if_absent_idempotent [] 1 2 "step_b" (7, 8) [(9, 10)]
    (by decide)).1

/-- `get_batch_blueprint` (src/orchestrator.py:144-165): reads the batch row
and returns its blueprint list; a missing batch row or a falsy (empty)
blueprint yields `[]`. -/
def get_batch_blueprint (batches : List (Nat × List String)) (batch_id : Nat) :
    List String :=
  match batches.find? (fun p => p.1 == batch_id) with
  | some p => if p.2.isEmpty then [] else p.2
  | none => []

/-- The per-tick blueprint cache of `advance_completed_items`
(src/orchestrator.py:306-322): consult the cache, otherwise call
`get_batch_blueprint` and record the result. -/
def cached_blueprint (batches : List (Nat × List String))
    (cache : List (Nat × List String)) (batch_id : Nat) :
    List String × List (Nat × List String) :=
  match cache.find? (fun p => p.1 == batch_id) with
  | some p => (p.2, cache)
  | none =>
    let bp := get_batch_blueprint batches batch_id
    (bp, (batch_id, bp) :: cache)

/-- Python `list.index` (src/orchestrator.py:332): position of the first
occurrence of `step` in the blueprint, `none` when absent (the `ValueError`
branch of the code). -/
def blueprint_index : List String → String → Option Nat
  | [], _ => none
  | s :: rest, step =>
    if s = step then some 0 else (blueprint_index rest step).map (· + 1)

/-- `fetch_completed_for_advancement` (src/orchestrator.py:107-141):
`SELECT ... WHERE status='COMPLETED' AND advanced_at IS NULL
ORDER BY updated_at ASC LIMIT batch_size`. -/
def fetch_completed_for_advancement (db : StateDB) (batch_size : Nat) :
    List WorkflowState :=
  (List.insertionSort (fun a b => a.updated_at ≤ b.updated_at)
    (db.filter fun ws => decide (ws.status = COMPLETED ∧ ws.advanced_at = none))).take
    batch_size

/-- The `logger.warning` events of the sequencer loop
(src/orchestrator.py:325 and 334). -/
inductive SeqWarning where
  | no_blueprint (batch_id : Nat)
  | step_not_found (step : String) (batch_id : Nat)
deriving DecidableEq

/-- The `results` dictionary of `advance_completed_items`
(src/orchestrator.py:299-304). -/
structure SeqResults where
  processed : Nat
  advanced : Nat
  finished : Nat
  errors : Nat
deriving DecidableEq

/-- The evolving state of one sequencer tick: the workflow table, the
per-tick blueprint cache, a supply of fresh row ids, the results counters
and the recorded warnings. -/
structure SeqState where
  db : StateDB
  cache : List (Nat × List String)
  fresh : Nat
  res : SeqResults
  warns : List SeqWarning
deriving DecidableEq

/-- The body of the sequencer loop (src/orchestrator.py:309-359) for one
fetched item: resolve the blueprint through the cache; if it is empty, warn,
mark advanced and count the item finished; if the current step is absent from
the blueprint, warn, mark advanced and count finished; otherwise spawn the
next step when one exists (counting advanced) or count finished when the
step is last, and mark advanced in either case. -/
def advance_one (batches : List (Nat × List String)) (now : Nat)
    (st : SeqState) (item : WorkflowState) : SeqState :=
  let st0 := { st with res := { st.res with processed := st.res.processed + 1 } }
  let bc := cached_blueprint batches st0.cache item.batch_id
  let blueprint := bc.1
  let st1 := { st0 with cache := bc.2 }
  if blueprint.isEmpty then
    let m := mark_state_as_advanced st1.db item.id now
    { st1 with db := m.1,
               res := { st1.res with finished := st1.res.finished + 1 },
               warns := st1.warns ++ [SeqWarning.no_blueprint item.batch_id] }
  else
    match blueprint_index blueprint item.step_name with
    | none =>
      let m := mark_state_as_advanced st1.db item.id now
      { st1 with db := m.1,
                 res := { st1.res with finished := st1.res.finished + 1 },
                 warns := st1.warns ++ [SeqWarning.step_not_found item.step_name item.batch_id] }
    | some current_index =>
      let st2 :=
        if current_index + 1 < blueprint.length then
          let next_step := blueprint.getD (current_index + 1) ""
          let sp := spawn_next_step st1.db item.item_id item.batch_id next_step
            st1.fresh now
          { st1 with db := sp.1, fresh := st1.fresh + 1,
                     res := { st1.res with advanced := st1.res.advanced + 1 } }
        else
          { st1 with res := { st1.res with finished := st1.res.finished + 1 } }
      let m := mark_state_as_advanced st2.db item.id now
      { st2 with db := m.1 }

/-- `advance_completed_items` (src/orchestrator.py:276-366), the Sequencer
tick: fetch completed, not-yet-advanced rows and run the loop body over them
with an initially empty blueprint cache and zeroed counters. -/
def advance_completed_items (batches : List (Nat × List String)) (db : StateDB)
    (fresh now batch_size : Nat) : SeqState :=
  let completed_items := fetch_completed_for_advancement db batch_size
  completed_items.foldl (advance_one batches now)
    { db := db, cache := [], fresh := fresh,
      res := { processed := 0, advanced := 0, finished := 0, errors := 0 },
      warns := [] }

/-- C4: for a batch with blueprint ["A","B","C"] and one item whose step-A
row is COMPLETED with null `advanced_at`, one sequencer tick spawns a
PENDING row for step "B" and sets the step-A row's `advanced_at`; a second
tick leaves the database unchanged (no second "B" row). -/
theorem C4_claim_sequencer_abc_scenario
    (b i idA t fresh now fresh2 now2 : Nat) (hne : idA ≠ fresh) :
    (advance_completed_items [(b, ["A", "B", "C"])]
        [⟨idA, b, i, "A", COMPLETED, t, none, none⟩] fresh now 50).db
      = [⟨idA, b, i, "A", COMPLETED, t, some now, none⟩,
         ⟨fresh, b, i, "B", PENDING, now, none, none⟩]
    ∧ (advance_completed_items [(b, ["A", "B", "C"])]
        [⟨idA, b, i, "A", COMPLETED, t, some now, none⟩,
         ⟨fresh, b, i, "B", PENDING, now, none, none⟩] fresh2 now2 50).db
      = [⟨idA, b, i, "A", COMPLETED, t, some now, none⟩,
         ⟨fresh, b, i, "B", PENDING, now, none, none⟩] := by
  have hAB : ("A" : String) = "B" ↔ False := by simp
  have hne' : fresh = idA ↔ False := by simp [Ne.symm hne]
  simp only [advance_completed_items, fetch_completed_for_advancement,
    List.filter, decide_eq_true_eq]
  norm_num [List.insertionSort, List.orderedInsert, advance_one,
    cached_blueprint, get_batch_blueprint, blueprint_index,
    spawn_next_step, mark_state_as_advanced, mkSpawnRow, matches_triple,
    hAB, hne']

/-- Witness for C4 at concrete identifiers and timestamps. -/
theorem C4_claim_sequencer_abc_scenario_witness :
    (advance_completed_items [(5, ["A", "B", "C"])]
        [⟨3, 5, 9, "A", COMPLETED, 2, none, none⟩] 10 20 50).db =
      [⟨3, 5, 9, "A", COMPLETED, 2, some 20, none⟩,
       ⟨10, 5, 9, "B", PENDING, 20, none, none⟩]
    ∧ (advance_completed_items [(5, ["A", "B", "C"])]
        [⟨3, 5, 9, "A", COMPLETED, 2, some 20, none⟩,
         ⟨10, 5, 9, "B", PENDING, 20, none, none⟩] 11 30 50).db =
      [⟨3, 5, 9, "A", COMPLETED, 2, some 20, none⟩,
       ⟨10, 5, 9, "B", PENDING, 20, none, none⟩] :=
  C4_claim_sequencer_abc_scenario 5 9 3 2 10 20 11 30 (by decide)

/-- Forget the `advanced_at` field: two rows related by `clearAdv` equality
agree on every other column. -/
def clearAdv (ws : WorkflowState) : WorkflowState := { ws with advanced_at := none }

theorem clearAdv_fields {a b : WorkflowState} (h : clearAdv a = clearAdv b) :
    a.id = b.id ∧ a.batch_id = b.batch_id ∧ a.item_id = b.item_id
    ∧ a.step_name = b.step_name ∧ a.status = b.status
    ∧ a.updated_at = b.updated_at ∧ a.meta = b.meta := by
  cases a; cases b
  simp_all [clearAdv]

/-- Every row id in the database is below the fresh-id supply. -/
def DbIdsBelow (db : StateDB) (fresh : Nat) : Prop := ∀ ws ∈ db, ws.id < fresh

instance (db : StateDB) (fresh : Nat) : Decidable (DbIdsBelow db fresh) := by
  unfold DbIdsBelow
  infer_instance

/-- Every cache entry agrees with `get_batch_blueprint`. -/
def CacheOK (batches cache : List (Nat × List String)) : Prop :=
  ∀ p ∈ cache, p.2 = get_batch_blueprint batches p.1

/-- The row shape that processing the fetched item `it` may insert: the
item's step occurs in its batch blueprint at a position with a successor,
and the new row is the (batch, item, successor-step) row with status
PENDING. -/
def SpawnedKey (batches : List (Nat × List String)) (it ws : WorkflowState) : Prop :=
  ∃ k, blueprint_index (get_batch_blueprint batches it.batch_id) it.step_name = some k
    ∧ k + 1 < (get_batch_blueprint batches it.batch_id).length
    ∧ ws.step_name = (get_batch_blueprint batches it.batch_id).getD (k + 1) ""
    ∧ ws.batch_id = it.batch_id ∧ ws.item_id = it.item_id ∧ ws.status = PENDING

/-- Whether the loop body counts the item as `finished` (empty blueprint,
step not in blueprint, or step is last) rather than `advanced`. -/
def finish_branch (batches : List (Nat × List String)) (it : WorkflowState) : Bool :=
  let bp := get_batch_blueprint batches it.batch_id
  bp.isEmpty ||
    (match blueprint_index bp it.step_name with
     | none => true
     | some k => decide (bp.length ≤ k + 1))

/-- The warnings the loop body records for the item. -/
def warn_delta (batches : List (Nat × List String)) (it : WorkflowState) :
    List SeqWarning :=
  let bp := get_batch_blueprint batches it.batch_id
  if bp.isEmpty then [SeqWarning.no_blueprint it.batch_id]
  else
    match blueprint_index bp it.step_name with
    | none => [SeqWarning.step_not_found it.step_name it.batch_id]
    | some _ => []

theorem blueprint_index_eq_none_of_not_mem {bp : List String} {s : String}
    (h : s ∉ bp) : blueprint_index bp s = none := by
  induction bp with
  | nil => rfl
  | cons a rest ih =>
    have ha : a ≠ s := fun e => h (e ▸ List.mem_cons_self a rest)
    simp only [blueprint_index, if_neg ha]
    rw [ih (fun hm => h (List.mem_cons_of_mem a hm))]
    rfl

theorem mark_mem_clearAdv {db : StateDB} {w now : Nat} :
    ∀ ws' ∈ (mark_state_as_advanced db w now).1, ∃ ws ∈ db, clearAdv ws' = clearAdv ws := by
  intro ws' hmem
  rcases mark_state_as_advanced_mem.mp hmem with ⟨ws, hws, hcase⟩
  refine ⟨ws, hws, ?_⟩
  by_cases hc : ws.id = w ∧ ws.advanced_at = none
  · rw [if_pos hc] at hcase; rw [hcase]; rfl
  · rw [if_neg hc] at hcase; rw [hcase]

theorem mark_mem_of_advanced {db : StateDB} {w now : Nat} {ws : WorkflowState}
    (hws : ws ∈ db) (h : ws.advanced_at ≠ none) :
    ws ∈ (mark_state_as_advanced db w now).1 := by
  have : (if ws.id = w ∧ ws.advanced_at = none
          then { ws with advanced_at := some now } else ws) = ws :=
    if_neg (fun hc => h hc.2)
  exact this ▸ List.mem_map_of_mem _ hws

theorem mark_id_present {db : StateDB} {w now : Nat} {ws : WorkflowState}
    (hws : ws ∈ db) :
    ∃ ws' ∈ (mark_state_as_advanced db w now).1, ws'.id = ws.id := by
  by_cases hc : ws.id = w ∧ ws.advanced_at = none
  · exact ⟨{ ws with advanced_at := some now },
      mark_state_as_advanced_mem.mpr ⟨ws, hws, by rw [if_pos hc]⟩, rfl⟩
  · exact ⟨ws, mark_state_as_advanced_mem.mpr ⟨ws, hws, by rw [if_neg hc]⟩, rfl⟩

theorem spawn_mem_cases {db : StateDB} {i b newid now : Nat} {s : String} :
    ∀ ws' ∈ (spawn_next_step db i b s newid now).1,
      ws' ∈ db ∨ ws' = mkSpawnRow b i s newid now := by
  intro ws' hmem
  unfold spawn_next_step at hmem
  by_cases hc : db.any (matches_triple b i s) = true
  · rw [if_pos hc] at hmem; exact Or.inl hmem
  · rw [if_neg hc] at hmem
    rcases List.mem_append.mp hmem with h | h
    · exact Or.inl h
    · exact Or.inr (List.mem_singleton.mp h)

theorem spawn_mem_of_mem {db : StateDB} {i b newid now : Nat} {s : String}
    {ws : WorkflowState} (hws : ws ∈ db) :
    ws ∈ (spawn_next_step db i b s newid now).1 := by
  unfold spawn_next_step
  by_cases hc : db.any (matches_triple b i s) = true
  · rw [if_pos hc]; exact hws
  · rw [if_neg hc]; exact List.mem_append_left _ hws

theorem DbIdsBelow_mark {db : StateDB} {f w now : Nat} (h : DbIdsBelow db f) :
    DbIdsBelow (mark_state_as_advanced db w now).1 f := by
  intro ws' hmem
  rcases mark_mem_clearAdv ws' hmem with ⟨ws, hws, heq⟩
  rw [(clearAdv_fields heq).1]
  exact h ws hws

theorem DbIdsBelow_spawn {db : StateDB} {i b f now : Nat} {s : String}
    (h : DbIdsBelow db f) :
    DbIdsBelow (spawn_next_step db i b s f now).1 (f + 1) := by
  intro ws' hmem
  rcases spawn_mem_cases ws' hmem with hold | hnew
  · exact Nat.lt_succ_of_lt (h ws' hold)
  · rw [hnew]; exact Nat.lt_succ_self f

theorem cached_blueprint_fst {batches cache : List (Nat × List String)} {b : Nat}
    (h : CacheOK batches cache) :
    (cached_blueprint batches cache b).1 = get_batch_blueprint batches b := by
  unfold cached_blueprint
  cases hf : cache.find? (fun p => p.1 == b) with
  | none => rfl
  | some p =>
    have hmem := List.mem_of_find?_eq_some hf
    have hfs := List.find?_some hf
    have hp : p.1 = b := by simpa using hfs
    simp only [h p hmem, hp]

theorem cached_blueprint_snd {batches cache : List (Nat × List String)} {b : Nat}
    (h : CacheOK batches cache) :
    CacheOK batches (cached_blueprint batches cache b).2 := by
  unfold cached_blueprint
  cases hf : cache.find? (fun p => p.1 == b) with
  | none =>
    intro p hp
    rcases List.mem_cons.mp hp with rfl | hmem
    · rfl
    · exact h p hmem
  | some q => exact h

theorem advance_one_eq_empty {batches : List (Nat × List String)} {now : Nat}
    {st : SeqState} {item : WorkflowState} (hc : CacheOK batches st.cache)
    (hemp : (get_batch_blueprint batches item.batch_id).isEmpty = true) :
    advance_one batches now st item =
      { db := (mark_state_as_advanced st.db item.id now).1,
        cache := (cached_blueprint batches st.cache item.batch_id).2,
        fresh := st.fresh,
        res := { processed := st.res.processed + 1, advanced := st.res.advanced,
                 finished := st.res.finished + 1, errors := st.res.errors },
        warns := st.warns ++ [SeqWarning.no_blueprint item.batch_id] } := by
  have hbp := cached_blueprint_fst (b := item.batch_id) hc
  simp only [advance_one, hbp, hemp, if_true]

theorem advance_one_eq_not_found {batches : List (Nat × List String)} {now : Nat}
    {st : SeqState} {item : WorkflowState} (hc : CacheOK batches st.cache)
    (hemp : (get_batch_blueprint batches item.batch_id).isEmpty = false)
    (hidx : blueprint_index (get_batch_blueprint batches item.batch_id)
      item.step_name = none) :
    advance_one batches now st item =
      { db := (mark_state_as_advanced st.db item.id now).1,
        cache := (cached_blueprint batches st.cache item.batch_id).2,
        fresh := st.fresh,
        res := { processed := st.res.processed + 1, advanced := st.res.advanced,
                 finished := st.res.finished + 1, errors := st.res.errors },
        warns := st.warns
          ++ [SeqWarning.step_not_found item.step_name item.batch_id] } := by
  have hbp := cached_blueprint_fst (b := item.batch_id) hc
  simp only [advance_one, hbp, hemp, hidx, Bool.false_eq_true, if_false]

theorem advance_one_eq_spawn {batches : List (Nat × List String)} {now : Nat}
    {st : SeqState} {item : WorkflowState} {k : Nat} (hc : CacheOK batches st.cache)
    (hidx : blueprint_index (get_batch_blueprint batches item.batch_id)
      item.step_name = some k)
    (hlen : k + 1 < (get_batch_blueprint batches item.batch_id).length) :
    advance_one batches now st item =
      { db := (mark_state_as_advanced
          (spawn_next_step st.db item.item_id item.batch_id
            ((get_batch_blueprint batches item.batch_id).getD (k + 1) "")
            st.fresh now).1 item.id now).1,
        cache := (cached_blueprint batches st.cache item.batch_id).2,
        fresh := st.fresh + 1,
        res := { processed := st.res.processed + 1, advanced := st.res.advanced + 1,
                 finished := st.res.finished, errors := st.res.errors },
        warns := st.warns } := by
  have hbp := cached_blueprint_fst (b := item.batch_id) hc
  have hemp : (get_batch_blueprint batches item.batch_id).isEmpty = false := by
    rcases hmp : get_batch_blueprint batches item.batch_id with _ | _
    · rw [hmp] at hlen; simp at hlen
    · rfl
  simp only [advance_one, hbp, hemp, Bool.false_eq_true, if_false, hidx,
    if_pos hlen]

theorem advance_one_eq_last {batches : List (Nat × List String)} {now : Nat}
    {st : SeqState} {item : WorkflowState} {k : Nat} (hc : CacheOK batches st.cache)
    (hemp : (get_batch_blueprint batches item.batch_id).isEmpty = false)
    (hidx : blueprint_index (get_batch_blueprint batches item.batch_id)
      item.step_name = some k)
    (hlen : ¬ k + 1 < (get_batch_blueprint batches item.batch_id).length) :
    advance_one batches now st item =
      { db := (mark_state_as_advanced st.db item.id now).1,
        cache := (cached_blueprint batches st.cache item.batch_id).2,
        fresh := st.fresh,
        res := { processed := st.res.processed + 1, advanced := st.res.advanced,
                 finished := st.res.finished + 1, errors := st.res.errors },
        warns := st.warns } := by
  have hbp := cached_blueprint_fst (b := item.batch_id) hc
  simp only [advance_one, hbp, hemp, Bool.false_eq_true, if_false, hidx,
    if_neg hlen]

/-- Case analysis for the loop body: its database is either a plain
mark-advanced of the incoming database (fresh supply untouched) or a
mark-advanced of a successor spawn (fresh supply advanced by one). -/
theorem advance_one_db_cases {batches : List (Nat × List String)} {now : Nat}
    {st : SeqState} {item : WorkflowState} (hc : CacheOK batches st.cache) :
    ((advance_one batches now st item).db =
        (mark_state_as_advanced st.db item.id now).1
      ∧ (advance_one batches now st item).fresh = st.fresh)
    ∨ (∃ k, blueprint_index (get_batch_blueprint batches item.batch_id)
          item.step_name = some k
        ∧ k + 1 < (get_batch_blueprint batches item.batch_id).length
        ∧ (advance_one batches now st item).db =
            (mark_state_as_advanced
              (spawn_next_step st.db item.item_id item.batch_id
                ((get_batch_blueprint batches item.batch_id).getD (k + 1) "")
                st.fresh now).1 item.id now).1
        ∧ (advance_one batches now st item).fresh = st.fresh + 1) := by
  cases hemp : (get_batch_blueprint batches item.batch_id).isEmpty with
  | true => rw [advance_one_eq_empty hc hemp]; exact Or.inl ⟨rfl, rfl⟩
  | false =>
    cases hidx : blueprint_index (get_batch_blueprint batches item.batch_id)
        item.step_name with
    | none => rw [advance_one_eq_not_found hc hemp hidx]; exact Or.inl ⟨rfl, rfl⟩
    | some k =>
      by_cases hlen : k + 1 < (get_batch_blueprint batches item.batch_id).length
      · rw [advance_one_eq_spawn hc hidx hlen]
        exact Or.inr ⟨k, rfl, hlen, rfl, rfl⟩
      · rw [advance_one_eq_last hc hemp hidx hlen]; exact Or.inl ⟨rfl, rfl⟩

/-- Counters, warnings and cache after one loop-body step. -/
theorem advance_one_res {batches : List (Nat × List String)} {now : Nat}
    {st : SeqState} {item : WorkflowState} (hc : CacheOK batches st.cache) :
    (advance_one batches now st item).res.processed = st.res.processed + 1
    ∧ (advance_one batches now st item).res.errors = st.res.errors
    ∧ (advance_one batches now st item).res.finished
        = st.res.finished + (if finish_branch batches item then 1 else 0)
    ∧ (advance_one batches now st item).res.advanced
        = st.res.advanced + (if finish_branch batches item then 0 else 1)
    ∧ (advance_one batches now st item).warns = st.warns ++ warn_delta batches item
    ∧ CacheOK batches (advance_one batches now st item).cache := by
  cases hemp : (get_batch_blueprint batches item.batch_id).isEmpty with
  | true =>
    rw [advance_one_eq_empty hc hemp]
    refine ⟨rfl, rfl, ?_, ?_, ?_, cached_blueprint_snd hc⟩ <;>
      simp [finish_branch, warn_delta, hemp]
  | false =>
    cases hidx : blueprint_index (get_batch_blueprint batches item.batch_id)
        item.step_name with
    | none =>
      rw [advance_one_eq_not_found hc hemp hidx]
      refine ⟨rfl, rfl, ?_, ?_, ?_, cached_blueprint_snd hc⟩ <;>
        simp [finish_branch, warn_delta, hemp, hidx]
    | some k =>
      by_cases hlen : k + 1 < (get_batch_blueprint batches item.batch_id).length
      · rw [advance_one_eq_spawn hc hidx hlen]
        refine ⟨rfl, rfl, ?_, ?_, ?_, cached_blueprint_snd hc⟩ <;>
          simp [finish_branch, warn_delta, hemp, hidx, Nat.not_le.mpr hlen]
      · rw [advance_one_eq_last hc hemp hidx hlen]
        refine ⟨rfl, rfl, ?_, ?_, ?_, cached_blueprint_snd hc⟩ <;>
          simp [finish_branch, warn_delta, hemp, hidx, Nat.le_of_not_lt hlen]

theorem adv_pred_mark {db : StateDB} {w v now : Nat}
    (h : ∀ ws ∈ db, ws.id = w → ws.advanced_at ≠ none) :
    ∀ ws' ∈ (mark_state_as_advanced db v now).1, ws'.id = w →
      ws'.advanced_at ≠ none := by
  intro ws' hmem hid
  rcases mark_state_as_advanced_mem.mp hmem with ⟨ws, hws, hcase⟩
  by_cases hcnd : ws.id = v ∧ ws.advanced_at = none
  · rw [if_pos hcnd] at hcase; rw [hcase]; simp
  · rw [if_neg hcnd] at hcase; rw [hcase]; exact h ws hws (hcase ▸ hid)

theorem adv_pred_spawn {db : StateDB} {i b nid now w : Nat} {s : String}
    (h : ∀ ws ∈ db, ws.id = w → ws.advanced_at ≠ none) (hne : w ≠ nid) :
    ∀ ws' ∈ (spawn_next_step db i b s nid now).1, ws'.id = w →
      ws'.advanced_at ≠ none := by
  intro ws' hmem hid
  rcases spawn_mem_cases ws' hmem with hold | hnew
  · exact h ws' hold hid
  · rw [hnew] at hid
    simp [mkSpawnRow] at hid
    exact absurd hid.symm hne

theorem advance_one_keeps_advanced {batches : List (Nat × List String)} {now : Nat}
    {st : SeqState} {item ws : WorkflowState} (hc : CacheOK batches st.cache)
    (hws : ws ∈ st.db) (h : ws.advanced_at ≠ none) :
    ws ∈ (advance_one batches now st item).db := by
  rcases @advance_one_db_cases batches now st item hc with ⟨hdb, _⟩ | ⟨k, _, _, hdb, _⟩
  · rw [hdb]; exact mark_mem_of_advanced hws h
  · rw [hdb]; exact mark_mem_of_advanced (spawn_mem_of_mem hws) h

theorem advance_one_id_present {batches : List (Nat × List String)} {now : Nat}
    {st : SeqState} {item ws : WorkflowState} (hc : CacheOK batches st.cache)
    (hws : ws ∈ st.db) :
    ∃ ws' ∈ (advance_one batches now st item).db, ws'.id = ws.id := by
  rcases @advance_one_db_cases batches now st item hc with ⟨hdb, _⟩ | ⟨k, _, _, hdb, _⟩
  · rw [hdb]; exact mark_id_present hws
  · rw [hdb]; exact mark_id_present (spawn_mem_of_mem hws)

theorem advance_one_marks {batches : List (Nat × List String)} {now : Nat}
    {st : SeqState} {item : WorkflowState} (hc : CacheOK batches st.cache) :
    ∀ ws' ∈ (advance_one batches now st item).db, ws'.id = item.id →
      ws'.advanced_at ≠ none := by
  rcases @advance_one_db_cases batches now st item hc with ⟨hdb, _⟩ | ⟨k, _, _, hdb, _⟩
  · rw [hdb]; exact mark_state_as_advanced_sets
  · rw [hdb]; exact mark_state_as_advanced_sets

theorem advance_one_ids_below {batches : List (Nat × List String)} {now : Nat}
    {st : SeqState} {item : WorkflowState} (hc : CacheOK batches st.cache)
    (h : DbIdsBelow st.db st.fresh) :
    DbIdsBelow (advance_one batches now st item).db
      (advance_one batches now st item).fresh := by
  rcases @advance_one_db_cases batches now st item hc with
    ⟨hdb, hfr⟩ | ⟨k, _, _, hdb, hfr⟩
  · rw [hdb, hfr]; exact DbIdsBelow_mark h
  · rw [hdb, hfr]; exact DbIdsBelow_mark (DbIdsBelow_spawn h)

theorem advance_one_fresh_le {batches : List (Nat × List String)} {now : Nat}
    {st : SeqState} {item : WorkflowState} (hc : CacheOK batches st.cache) :
    st.fresh ≤ (advance_one batches now st item).fresh := by
  rcases @advance_one_db_cases batches now st item hc with
    ⟨_, hfr⟩ | ⟨k, _, _, _, hfr⟩
  · rw [hfr]
  · rw [hfr]; exact Nat.le_succ _

theorem advance_one_adv_pred {batches : List (Nat × List String)} {now : Nat}
    {st : SeqState} {item : WorkflowState} {w : Nat} (hc : CacheOK batches st.cache)
    (hw : w < st.fresh)
    (h : ∀ ws ∈ st.db, ws.id = w → ws.advanced_at ≠ none) :
    ∀ ws' ∈ (advance_one batches now st item).db, ws'.id = w →
      ws'.advanced_at ≠ none := by
  rcases @advance_one_db_cases batches now st item hc with ⟨hdb, _⟩ | ⟨k, _, _, hdb, _⟩
  · rw [hdb]; exact adv_pred_mark h
  · rw [hdb]; exact adv_pred_mark (adv_pred_spawn h (Nat.ne_of_lt hw))

theorem advance_one_attr {batches : List (Nat × List String)} {now : Nat}
    {st : SeqState} {item : WorkflowState} (hc : CacheOK batches st.cache) :
    ∀ ws' ∈ (advance_one batches now st item).db,
      (∃ ws ∈ st.db, clearAdv ws' = clearAdv ws) ∨ SpawnedKey batches item ws' := by
  rcases @advance_one_db_cases batches now st item hc with
    ⟨hdb, _⟩ | ⟨k, hidx, hlen, hdb, _⟩
  · rw [hdb]
    intro ws' hmem
    exact Or.inl (mark_mem_clearAdv ws' hmem)
  · rw [hdb]
    intro ws' hmem
    rcases mark_mem_clearAdv ws' hmem with ⟨ws2, hws2, heq2⟩
    rcases spawn_mem_cases ws2 hws2 with hold | hnew
    · exact Or.inl ⟨ws2, hold, heq2⟩
    · subst hnew
      have hf := clearAdv_fields heq2
      refine Or.inr ⟨k, hidx, hlen, ?_, ?_, ?_, ?_⟩
      · exact hf.2.2.2.1
      · exact hf.2.1
      · exact hf.2.2.1
      · exact hf.2.2.2.2.1

theorem SpawnedKey_of_clearAdv_eq {batches : List (Nat × List String)}
    {it a b : WorkflowState} (h : clearAdv a = clearAdv b)
    (hk : SpawnedKey batches it b) : SpawnedKey batches it a := by
  have hf := clearAdv_fields h
  rcases hk with ⟨k, h1, h2, h3, h4, h5, h6⟩
  exact ⟨k, h1, h2, by rw [hf.2.2.2.1]; exact h3, by rw [hf.2.1]; exact h4,
    by rw [hf.2.2.1]; exact h5, by rw [hf.2.2.2.2.1]; exact h6⟩

theorem foldl_cache_ok {batches : List (Nat × List String)} {now : Nat} :
    ∀ (l : List WorkflowState) (st : SeqState), CacheOK batches st.cache →
      CacheOK batches (l.foldl (advance_one batches now) st).cache := by
  intro l
  induction l with
  | nil => intro st hc; exact hc
  | cons a l ih =>
    intro st hc
    exact ih _ (advance_one_res hc).2.2.2.2.2

theorem foldl_fresh_le {batches : List (Nat × List String)} {now : Nat} :
    ∀ (l : List WorkflowState) (st : SeqState), CacheOK batches st.cache →
      st.fresh ≤ (l.foldl (advance_one batches now) st).fresh := by
  intro l
  induction l with
  | nil => intro st _; exact Nat.le_refl _
  | cons a l ih =>
    intro st hc
    exact Nat.le_trans (advance_one_fresh_le hc)
      (ih _ (advance_one_res hc).2.2.2.2.2)

theorem foldl_keeps_advanced {batches : List (Nat × List String)} {now : Nat}
    {ws : WorkflowState} :
    ∀ (l : List WorkflowState) (st : SeqState), CacheOK batches st.cache →
      ws ∈ st.db → ws.advanced_at ≠ none →
      ws ∈ (l.foldl (advance_one batches now) st).db := by
  intro l
  induction l with
  | nil => intro st _ hws _; exact hws
  | cons a l ih =>
    intro st hc hws hadv
    exact ih _ (advance_one_res hc).2.2.2.2.2
      (advance_one_keeps_advanced hc hws hadv) hadv

theorem foldl_id_present {batches : List (Nat × List String)} {now : Nat} :
    ∀ (l : List WorkflowState) (st : SeqState), CacheOK batches st.cache →
      ∀ ws ∈ st.db,
      ∃ ws' ∈ (l.foldl (advance_one batches now) st).db, ws'.id = ws.id := by
  intro l
  induction l with
  | nil => intro st _ ws hws; exact ⟨ws, hws, rfl⟩
  | cons a l ih =>
    intro st hc ws hws
    rcases @advance_one_id_present batches now st a ws hc hws with ⟨w1, hw1, hid1⟩
    rcases ih _ (advance_one_res hc).2.2.2.2.2 w1 hw1 with ⟨w2, hw2, hid2⟩
    exact ⟨w2, hw2, hid2.trans hid1⟩

theorem foldl_adv_pred {batches : List (Nat × List String)} {now w : Nat} :
    ∀ (l : List WorkflowState) (st : SeqState), CacheOK batches st.cache →
      w < st.fresh →
      (∀ ws ∈ st.db, ws.id = w → ws.advanced_at ≠ none) →
      ∀ ws' ∈ (l.foldl (advance_one batches now) st).db, ws'.id = w →
        ws'.advanced_at ≠ none := by
  intro l
  induction l with
  | nil => intro st _ _ h; exact h
  | cons a l ih =>
    intro st hc hw h
    exact ih _ (advance_one_res hc).2.2.2.2.2
      (Nat.lt_of_lt_of_le hw (advance_one_fresh_le hc))
      (advance_one_adv_pred hc hw h)

theorem foldl_marked {batches : List (Nat × List String)} {now : Nat}
    {it : WorkflowState} :
    ∀ (l : List WorkflowState) (st : SeqState), CacheOK batches st.cache →
      it ∈ l → it.id < st.fresh →
      ∀ ws' ∈ (l.foldl (advance_one batches now) st).db, ws'.id = it.id →
        ws'.advanced_at ≠ none := by
  intro l
  induction l with
  | nil => intro st _ hmem; exact absurd hmem (List.not_mem_nil it)
  | cons a l ih =>
    intro st hc hmem hlt
    rcases List.mem_cons.mp hmem with rfl | hmem'
    · exact foldl_adv_pred l _ (advance_one_res hc).2.2.2.2.2
        (Nat.lt_of_lt_of_le hlt (advance_one_fresh_le hc))
        (advance_one_marks hc)
    · exact ih _ (advance_one_res hc).2.2.2.2.2 hmem'
        (Nat.lt_of_lt_of_le hlt (advance_one_fresh_le hc))

theorem foldl_attr {batches : List (Nat × List String)} {now : Nat} :
    ∀ (l : List WorkflowState) (st : SeqState), CacheOK batches st.cache →
      ∀ ws' ∈ (l.foldl (advance_one batches now) st).db,
        (∃ ws ∈ st.db, clearAdv ws' = clearAdv ws)
        ∨ ∃ it ∈ l, SpawnedKey batches it ws' := by
  intro l
  induction l with
  | nil => intro st _ ws' hmem; exact Or.inl ⟨ws', hmem, rfl⟩
  | cons a l ih =>
    intro st hc ws' hmem
    rcases ih _ (advance_one_res hc).2.2.2.2.2 ws' hmem with ⟨w1, hw1, heq1⟩ | ⟨it, hit, hsk⟩
    · rcases advance_one_attr hc w1 hw1 with ⟨w0, hw0, heq0⟩ | hsk
      · exact Or.inl ⟨w0, hw0, heq1.trans heq0⟩
      · exact Or.inr ⟨a, List.mem_cons_self a l, SpawnedKey_of_clearAdv_eq heq1 hsk⟩
    · exact Or.inr ⟨it, List.mem_cons_of_mem a hit, hsk⟩

theorem foldl_finished {batches : List (Nat × List String)} {now : Nat} :
    ∀ (l : List WorkflowState) (st : SeqState), CacheOK batches st.cache →
      (l.foldl (advance_one batches now) st).res.finished
        = st.res.finished + l.countP (finish_branch batches) := by
  intro l
  induction l with
  | nil => intro st _; simp
  | cons a l ih =>
    intro st hc
    have hstep := (@advance_one_res batches now st a hc).2.2.1
    have := ih _ (@advance_one_res batches now st a hc).2.2.2.2.2
    rw [List.foldl_cons] at *
    rw [this, hstep, List.countP_cons]
    by_cases hfb : finish_branch batches a = true
    · simp [hfb]; omega
    · simp [hfb]

theorem foldl_warns_mono {batches : List (Nat × List String)} {now : Nat}
    {x : SeqWarning} :
    ∀ (l : List WorkflowState) (st : SeqState), CacheOK batches st.cache →
      x ∈ st.warns → x ∈ (l.foldl (advance_one batches now) st).warns := by
  intro l
  induction l with
  | nil => intro st _ hx; exact hx
  | cons a l ih =>
    intro st hc hx
    refine ih _ (advance_one_res hc).2.2.2.2.2 ?_
    rw [(advance_one_res hc).2.2.2.2.1]
    exact List.mem_append_left _ hx

theorem foldl_warn_of_mem {batches : List (Nat × List String)} {now : Nat}
    {it : WorkflowState} :
    ∀ (l : List WorkflowState) (st : SeqState), CacheOK batches st.cache →
      it ∈ l → ∀ x ∈ warn_delta batches it,
        x ∈ (l.foldl (advance_one batches now) st).warns := by
  intro l
  induction l with
  | nil => intro st _ hmem; exact absurd hmem (List.not_mem_nil it)
  | cons a l ih =>
    intro st hc hmem x hx
    rcases List.mem_cons.mp hmem with rfl | hmem'
    · refine foldl_warns_mono l _ (advance_one_res hc).2.2.2.2.2 ?_
      rw [(advance_one_res hc).2.2.2.2.1]
      exact List.mem_append_right _ hx
    · exact ih _ (advance_one_res hc).2.2.2.2.2 hmem' x hx

/-- Rows returned by `fetch_completed_for_advancement` are rows of the
database that are COMPLETED with null `advanced_at`. -/
theorem fetch_completed_mem {db : StateDB} {n : Nat} {ws : WorkflowState}
    (h : ws ∈ fetch_completed_for_advancement db n) :
    ws ∈ db ∧ ws.status = COMPLETED ∧ ws.advanced_at = none := by
  unfold fetch_completed_for_advancement at h
  have h1 := List.take_subset _ _ h
  have h2 := (List.perm_insertionSort _ _).mem_iff.mp h1
  have h3 := List.mem_filter.mp h2
  refine ⟨h3.1, ?_⟩
  have := h3.2
  simpa using this

/-- The initial per-tick blueprint cache is empty and trivially coherent. -/
theorem cache_ok_nil {batches : List (Nat × List String)} :
    CacheOK batches [] :=
  fun p hp => absurd hp (List.not_mem_nil p)

/-- C7: a COMPLETED, not-yet-advanced row whose step is absent from its
batch's blueprint is, when picked up by a sequencer tick, marked advanced
(its id persists and every row with its id ends with non-null `advanced_at`),
spawns no successor (it satisfies no spawn shape, and every row of the final
database either corresponds to an initial row up to `advanced_at` or was
spawned by a fetched item whose step does occur with a successor), records a
warning, and is never selected by a later fetch. -/
theorem C7_claim_step_absent_from_blueprint
    (batches : List (Nat × List String)) (db : StateDB)
    (fresh now batch_size : Nat) (r : WorkflowState)
    (hids : DbIdsBelow db fresh)
    (hr : r ∈ fetch_completed_for_advancement db batch_size)
    (hnotin : r.step_name ∉ get_batch_blueprint batches r.batch_id) :
    (∃ ws ∈ (advance_completed_items batches db fresh now batch_size).db,
      ws.id = r.id)
    ∧ (∀ ws ∈ (advance_completed_items batches db fresh now batch_size).db,
        ws.id = r.id → ws.advanced_at ≠ none)
    ∧ (∀ ws' ∈ (advance_completed_items batches db fresh now batch_size).db,
        (∃ ws ∈ db, clearAdv ws' = clearAdv ws)
        ∨ ∃ it ∈ fetch_completed_for_advancement db batch_size,
            SpawnedKey batches it ws')
    ∧ (∀ ws', ¬ SpawnedKey batches r ws')
    ∧ ((get_batch_blueprint batches r.batch_id).isEmpty = true →
        SeqWarning.no_blueprint r.batch_id
          ∈ (advance_completed_items batches db fresh now batch_size).warns)
    ∧ ((get_batch_blueprint batches r.batch_id).isEmpty = false →
        SeqWarning.step_not_found r.step_name r.batch_id
          ∈ (advance_completed_items batches db fresh now batch_size).warns)
    ∧ (∀ k, ∀ ws' ∈ fetch_completed_for_advancement
          (advance_completed_items batches db fresh now batch_size).db k,
        ws'.id ≠ r.id) := by
  have hrdb : r ∈ db := (fetch_completed_mem hr).1
  have hlt : r.id < fresh := hids r hrdb
  have hidxn : blueprint_index (get_batch_blueprint batches r.batch_id)
      r.step_name = none := blueprint_index_eq_none_of_not_mem hnotin
  have hmarked : ∀ ws ∈ (advance_completed_items batches db fresh now batch_size).db,
      ws.id = r.id → ws.advanced_at ≠ none := by
    simp only [advance_completed_items]
    exact foldl_marked _ _ cache_ok_nil hr hlt
  refine ⟨?_, hmarked, ?_, ?_, ?_, ?_, ?_⟩
  · simp only [advance_completed_items]
    exact foldl_id_present _ _ cache_ok_nil r hrdb
  · simp only [advance_completed_items]
    exact foldl_attr _ _ cache_ok_nil
  · rintro ws' ⟨k, hk, -⟩
    rw [hidxn] at hk
    exact Option.noConfusion hk
  · intro hemp
    simp only [advance_completed_items]
    refine foldl_warn_of_mem _ _ cache_ok_nil hr _ ?_
    simp [warn_delta, hemp]
  · intro hemp
    simp only [advance_completed_items]
    refine foldl_warn_of_mem _ _ cache_ok_nil hr _ ?_
    simp [warn_delta, hemp, hidxn]
  · intro k ws' hmem hid
    have hf := fetch_completed_mem hmem
    exact hmarked ws' hf.1 hid hf.2.2

/-- Witness for C7: one COMPLETED row whose step "Y" is not in the
blueprint ["X"] of its batch; the tick records the warning. -/
theorem C7_claim_step_absent_from_blueprint_witness :
    SeqWarning.step_not_found "Y" 5
      ∈ (advance_completed_items [(5, ["X"])]
          [⟨3, 5, 9, "Y", COMPLETED, 2, none, none⟩] 10 20 50).warns :=
  (C7_claim_step_absent_from_blueprint [(5, ["X"])]
    [⟨3, 5, 9, "Y", COMPLETED, 2, none, none⟩] 10 20 50
    ⟨3, 5, 9, "Y", COMPLETED, 2, none, none⟩
    (by decide) (by decide) (by decide)).2.2.2.2.2.1 (by decide)

/-- C8: a COMPLETED, not-yet-advanced row whose step is the last element of
its batch's blueprint is, when picked up by a sequencer tick, marked
advanced, spawns no successor, is counted in the `finished` tally, and is
never selected by a later fetch. -/
theorem C8_claim_last_step_finishes_pipeline
    (batches : List (Nat × List String)) (db : StateDB)
    (fresh now batch_size : Nat) (r : WorkflowState) (k : Nat)
    (hids : DbIdsBelow db fresh)
    (hr : r ∈ fetch_completed_for_advancement db batch_size)
    (hidx : blueprint_index (get_batch_blueprint batches r.batch_id)
      r.step_name = some k)
    (hlast : k + 1 = (get_batch_blueprint batches r.batch_id).length) :
    (∃ ws ∈ (advance_completed_items batches db fresh now batch_size).db,
      ws.id = r.id)
    ∧ (∀ ws ∈ (advance_completed_items batches db fresh now batch_size).db,
        ws.id = r.id → ws.advanced_at ≠ none)
    ∧ (∀ ws' ∈ (advance_completed_items batches db fresh now batch_size).db,
        (∃ ws ∈ db, clearAdv ws' = clearAdv ws)
        ∨ ∃ it ∈ fetch_completed_for_advancement db batch_size,
            SpawnedKey batches it ws')
    ∧ (∀ ws', ¬ SpawnedKey batches r ws')
    ∧ (advance_completed_items batches db fresh now batch_size).res.finished
        = (fetch_completed_for_advancement db batch_size).countP
            (finish_branch batches)
    ∧ finish_branch batches r = true
    ∧ (∀ k', ∀ ws' ∈ fetch_completed_for_advancement
          (advance_completed_items batches db fresh now batch_size).db k',
        ws'.id ≠ r.id) := by
  have hrdb : r ∈ db := (fetch_completed_mem hr).1
  have hlt : r.id < fresh := hids r hrdb
  have hmarked : ∀ ws ∈ (advance_completed_items batches db fresh now batch_size).db,
      ws.id = r.id → ws.advanced_at ≠ none := by
    simp only [advance_completed_items]
    exact foldl_marked _ _ cache_ok_nil hr hlt
  refine ⟨?_, hmarked, ?_, ?_, ?_, ?_, ?_⟩
  · simp only [advance_completed_items]
    exact foldl_id_present _ _ cache_ok_nil r hrdb
  · simp only [advance_completed_items]
    exact foldl_attr _ _ cache_ok_nil
  · rintro ws' ⟨k', hk', hlen', -⟩
    rw [hidx] at hk'
    have : k' = k := (Option.some.inj hk').symm
    subst this
    rw [← hlast] at hlen'
    exact absurd hlen' (Nat.lt_irrefl _)
  · simp only [advance_completed_items]
    have := @foldl_finished batches now
      (fetch_completed_for_advancement db batch_size)
      { db := db, cache := [], fresh := fresh,
        res := { processed := 0, advanced := 0, finished := 0, errors := 0 },
        warns := [] } cache_ok_nil
    simpa using this
  · simp [finish_branch, hidx, Nat.le_of_eq hlast.symm]
  · intro k' ws' hmem hid
    have hf := fetch_completed_mem hmem
    exact hmarked ws' hf.1 hid hf.2.2

/-- Witness for C8: one COMPLETED row whose step "B" is last in the
blueprint ["A","B"]; the tick counts it finished. -/
theorem C8_claim_last_step_finishes_pipeline_witness :
    (advance_completed_items [(5, ["A", "B"])]
        [⟨3, 5, 9, "B", COMPLETED, 2, none, none⟩] 10 20 50).res.finished
      = (fetch_completed_for_advancement
          [⟨3, 5, 9, "B", COMPLETED, 2, none, none⟩] 50).countP
          (finish_branch [(5, ["A", "B"])]) :=
  (C8_claim_last_step_finishes_pipeline [(5, ["A", "B"])]
    [⟨3, 5, 9, "B", COMPLETED, 2, none, none⟩] 10 20 50
    ⟨3, 5, 9, "B", COMPLETED, 2, none, none⟩ 1
    (by decide) (by decide) (by decide) (by decide)).2.2.2.2.1

/-- C10: a COMPLETED, not-yet-advanced row whose batch has no resolvable
blueprint (missing batch row or empty blueprint) is, when picked up by a
sequencer tick, marked advanced with no successor spawned (it satisfies no
spawn shape, and every row of the final database either corresponds to an
initial row up to `advanced_at` or was spawned by a fetched item whose step
does occur with a successor), counted in the `finished` tally with a
warning recorded, and never selected again. -/
theorem C10_claim_empty_blueprint_finishes
    (batches : List (Nat × List String)) (db : StateDB)
    (fresh now batch_size : Nat) (r : WorkflowState)
    (hids : DbIdsBelow db fresh)
    (hr : r ∈ fetch_completed_for_advancement db batch_size)
    (hbp : get_batch_blueprint batches r.batch_id = []) :
    (∃ ws ∈ (advance_completed_items batches db fresh now batch_size).db,
      ws.id = r.id)
    ∧ (∀ ws ∈ (advance_completed_items batches db fresh now batch_size).db,
        ws.id = r.id → ws.advanced_at ≠ none)
    ∧ (∀ ws' ∈ (advance_completed_items batches db fresh now batch_size).db,
        (∃ ws ∈ db, clearAdv ws' = clearAdv ws)
        ∨ ∃ it ∈ fetch_completed_for_advancement db batch_size,
            SpawnedKey batches it ws')
    ∧ (∀ ws', ¬ SpawnedKey batches r ws')
    ∧ SeqWarning.no_blueprint r.batch_id
        ∈ (advance_completed_items batches db fresh now batch_size).warns
    ∧ (advance_completed_items batches db fresh now batch_size).res.finished
        = (fetch_completed_for_advancement db batch_size).countP
            (finish_branch batches)
    ∧ finish_branch batches r = true
    ∧ (∀ k', ∀ ws' ∈ fetch_completed_for_advancement
          (advance_completed_items batches db fresh now batch_size).db k',
        ws'.id ≠ r.id) := by
  have hrdb : r ∈ db := (fetch_completed_mem hr).1
  have hlt : r.id < fresh := hids r hrdb
  have hmarked : ∀ ws ∈ (advance_completed_items batches db fresh now batch_size).db,
      ws.id = r.id → ws.advanced_at ≠ none := by
    simp only [advance_completed_items]
    exact foldl_marked _ _ cache_ok_nil hr hlt
  refine ⟨?_, hmarked, ?_, ?_, ?_, ?_, ?_, ?_⟩
  · simp only [advance_completed_items]
    exact foldl_id_present _ _ cache_ok_nil r hrdb
  · simp only [advance_completed_items]
    exact foldl_attr _ _ cache_ok_nil
  · rintro ws' ⟨k, hk, -⟩
    rw [hbp] at hk
    exact Option.noConfusion hk
  · simp only [advance_completed_items]
    refine foldl_warn_of_mem _ _ cache_ok_nil hr _ ?_
    simp [warn_delta, hbp]
  · simp only [advance_completed_items]
    have := @foldl_finished batches now
      (fetch_completed_for_advancement db batch_size)
      { db := db, cache := [], fresh := fresh,
        res := { processed := 0, advanced := 0, finished := 0, errors := 0 },
        warns := [] } cache_ok_nil
    simpa using this
  · simp [finish_branch, hbp]
  · intro k' ws' hmem hid
    have hf := fetch_completed_mem hmem
    exact hmarked ws' hf.1 hid hf.2.2

/-- Witness for C10: a COMPLETED row whose batch id has no batch row at all;
the tick records the no-blueprint warning. -/
theorem C10_claim_empty_blueprint_finishes_witness :
    SeqWarning.no_blueprint 5
      ∈ (advance_completed_items []
          [⟨3, 5, 9, "A", COMPLETED, 2, none, none⟩] 10 20 50).warns :=
  (C10_claim_empty_blueprint_finishes []
    [⟨3, 5, 9, "A", COMPLETED, 2, none, none⟩] 10 20 50
    ⟨3, 5, 9, "A", COMPLETED, 2, none, none⟩
    (by decide) (by decide) (by decide)).2.2.2.2.1

/-- One row of the `enrichment_registry` table, as selected by
`fetch_pending_items` (src/orchestrator.py:53-67): slug, type and the
Modal function names. -/
structure RegistryEntry where
  slug : String
  workflow_type : Option String
  modal_sender_fn : Option String
  modal_receiver_fn : Option String
deriving DecidableEq

/-- One fetched dispatcher work item (the dict built in
src/orchestrator.py:69-72). -/
structure PendingItem where
  workflow_state_id : Nat
  item_id : Nat
  step_name : String
  batch_id : Nat
  workflow_type : Option String
  modal_sender_fn : Option String
  modal_receiver_fn : Option String
deriving DecidableEq

/-- `fetch_pending_items` (src/orchestrator.py:38-77):
`SELECT ... FROM workflow_states ws LEFT JOIN enrichment_registry er
ON ws.step_name = er.slug WHERE ws.status='PENDING'
ORDER BY ws.updated_at ASC LIMIT batch_size`. -/
def fetch_pending_items (db : StateDB) (registry : List RegistryEntry)
    (batch_size : Nat) : List PendingItem :=
  ((List.insertionSort (fun a b => a.updated_at ≤ b.updated_at)
      (db.filter fun ws => decide (ws.status = PENDING))).take batch_size).map
    fun ws =>
      match registry.find? (fun e => e.slug == ws.step_name) with
      | some e =>
        { workflow_state_id := ws.id, item_id := ws.item_id,
          step_name := ws.step_name, batch_id := ws.batch_id,
          workflow_type := e.workflow_type,
          modal_sender_fn := e.modal_sender_fn,
          modal_receiver_fn := e.modal_receiver_fn }
      | none =>
        { workflow_state_id := ws.id, item_id := ws.item_id,
          step_name := ws.step_name, batch_id := ws.batch_id,
          workflow_type := none, modal_sender_fn := none,
          modal_receiver_fn := none }

/-- The `status` values of a dispatch result dict
(src/orchestrator.py:241-269). -/
inductive DispatchStatus where
  | dispatched
  | skipped
  | failed
deriving DecidableEq

/-- The dispatch result dict of `dispatch_to_modal`. -/
structure DispatchResult where
  item_id : Nat
  status : DispatchStatus
  reason : Option String
  function : Option String
  error : Option String
deriving DecidableEq

/-- `dispatch_to_modal` (src/orchestrator.py:224-269): with no
`modal_sender_fn` the item is skipped with reason `no_function_mapping` and
no Modal call is attempted; otherwise `fn.spawn(item_id)` is attempted
(recorded in the returned trace) and succeeds or fails according to the
external oracle `spawn_ok`. -/
def dispatch_to_modal (spawn_ok : String → Nat → Bool) (item : PendingItem) :
    DispatchResult × List (String × Nat) :=
  match item.modal_sender_fn with
  | none =>
    ({ item_id := item.item_id, status := DispatchStatus.skipped,
       reason := some "no_function_mapping", function := none, error := none },
     [])
  | some fn =>
    if spawn_ok fn item.item_id then
      ({ item_id := item.item_id, status := DispatchStatus.dispatched,
         reason := none, function := some fn, error := none },
       [(fn, item.item_id)])
    else
      ({ item_id := item.item_id, status := DispatchStatus.failed,
         reason := none, function := some fn, error := some "spawn_error" },
       [(fn, item.item_id)])

/-- The `results` dictionary of `dispatch_pending_items`
(src/orchestrator.py:389-395). -/
structure DispResults where
  processed : Nat
  dispatched : Nat
  queued : Nat
  skipped : Nat
  failed : Nat
deriving DecidableEq

/-- The evolving state of one dispatcher tick: the workflow table, the
counters and the trace of attempted Modal calls. -/
structure DispState where
  db : StateDB
  res : DispResults
  calls : List (String × Nat)
deriving DecidableEq

/-- The body of the dispatcher loop (src/orchestrator.py:397-418) for one
fetched item: claim the row PENDING→QUEUED; on failure skip silently;
on success count it queued, dispatch to Modal and count the outcome. -/
def dispatch_one (spawn_ok : String → Nat → Bool) (now : Nat)
    (st : DispState) (item : PendingItem) : DispState :=
  let u := update_state_to_queued st.db item.workflow_state_id now
  if u.2 then
    let dr := dispatch_to_modal spawn_ok item
    { db := u.1,
      res := { processed := st.res.processed + 1,
               dispatched := st.res.dispatched
                 + (if dr.1.status = DispatchStatus.dispatched then 1 else 0),
               queued := st.res.queued + 1,
               skipped := st.res.skipped
                 + (if dr.1.status = DispatchStatus.skipped then 1 else 0),
               failed := st.res.failed
                 + (if dr.1.status = DispatchStatus.failed then 1 else 0) },
      calls := st.calls ++ dr.2 }
  else
    { st with db := u.1 }

/-- `dispatch_pending_items` (src/orchestrator.py:369-421), the Dispatcher
tick: fetch PENDING rows joined with the registry and run the loop body over
them with zeroed counters. -/
def dispatch_pending_items (db : StateDB) (registry : List RegistryEntry)
    (spawn_ok : String → Nat → Bool) (now batch_size : Nat) : DispState :=
  let pending_items := fetch_pending_items db registry batch_size
  pending_items.foldl (dispatch_one spawn_ok now)
    { db := db,
      res := { processed := 0, dispatched := 0, queued := 0, skipped := 0,
               failed := 0 },
      calls := [] }

theorem update_mem_of_ne {db : StateDB} {w now : Nat} {ws : WorkflowState}
    (hws : ws ∈ db) (hne : ws.id ≠ w) :
    ws ∈ (update_state_to_queued db w now).1 := by
  have : (if ws.id = w ∧ ws.status = PENDING
          then { ws with status := QUEUED, updated_at := now } else ws) = ws :=
    if_neg (fun hc => hne hc.1)
  exact this ▸ List.mem_map_of_mem _ hws

theorem update_id_present {db : StateDB} {w now : Nat} {ws : WorkflowState}
    (hws : ws ∈ db) :
    ∃ ws' ∈ (update_state_to_queued db w now).1, ws'.id = ws.id := by
  by_cases hc : ws.id = w ∧ ws.status = PENDING
  · exact ⟨{ ws with status := QUEUED, updated_at := now },
      update_state_to_queued_mem.mpr ⟨ws, hws, by rw [if_pos hc]⟩, rfl⟩
  · exact ⟨ws, update_state_to_queued_mem.mpr ⟨ws, hws, by rw [if_neg hc]⟩, rfl⟩

/-- Once every row with id `w` is QUEUED, any further claim (on any id)
leaves them QUEUED. -/
theorem qued_preserved {db : StateDB} {w v now : Nat}
    (h : ∀ ws ∈ db, ws.id = w → ws.status = QUEUED) :
    ∀ ws' ∈ (update_state_to_queued db v now).1, ws'.id = w →
      ws'.status = QUEUED := by
  intro ws' hmem hid
  rcases update_state_to_queued_mem.mp hmem with ⟨ws, hws, hcase⟩
  by_cases hc : ws.id = v ∧ ws.status = PENDING
  · rw [if_pos hc] at hcase; rw [hcase]
  · rw [if_neg hc] at hcase; rw [hcase]; exact h ws hws (hcase ▸ hid)

/-- In both branches of the dispatcher loop body, the database is the
result of the conditional claim update. -/
theorem dispatch_one_db {spawn_ok : String → Nat → Bool} {now : Nat}
    {st : DispState} {item : PendingItem} :
    (dispatch_one spawn_ok now st item).db =
      (update_state_to_queued st.db item.workflow_state_id now).1 := by
  by_cases h : (update_state_to_queued st.db item.workflow_state_id now).2 = true <;>
    simp [dispatch_one, h]

theorem dispatch_one_succ {spawn_ok : String → Nat → Bool} {now : Nat}
    {st : DispState} {item : PendingItem}
    (h : (update_state_to_queued st.db item.workflow_state_id now).2 = true) :
    (dispatch_one spawn_ok now st item).res.skipped
      = st.res.skipped
        + (if (dispatch_to_modal spawn_ok item).1.status = DispatchStatus.skipped
           then 1 else 0)
    ∧ (dispatch_one spawn_ok now st item).calls
      = st.calls ++ (dispatch_to_modal spawn_ok item).2 := by
  unfold dispatch_one
  rw [if_pos h]
  exact ⟨rfl, rfl⟩

theorem qued_foldl {spawn_ok : String → Nat → Bool} {now w : Nat} :
    ∀ (l : List PendingItem) (st : DispState),
      (∀ ws ∈ st.db, ws.id = w → ws.status = QUEUED) →
      ∀ ws ∈ (l.foldl (dispatch_one spawn_ok now) st).db, ws.id = w →
        ws.status = QUEUED := by
  intro l
  induction l with
  | nil => intro st h; exact h
  | cons a l ih =>
    intro st h
    refine ih _ ?_
    rw [dispatch_one_db]
    exact qued_preserved h

theorem disp_id_present_foldl {spawn_ok : String → Nat → Bool} {now w : Nat} :
    ∀ (l : List PendingItem) (st : DispState),
      (∃ ws ∈ st.db, ws.id = w) →
      ∃ ws ∈ (l.foldl (dispatch_one spawn_ok now) st).db, ws.id = w := by
  intro l
  induction l with
  | nil => intro st h; exact h
  | cons a l ih =>
    intro st ⟨ws, hws, hid⟩
    refine ih _ ?_
    rw [dispatch_one_db]
    rcases @update_id_present st.db a.workflow_state_id now ws hws with
      ⟨ws', hws', hid'⟩
    exact ⟨ws', hws', hid'.trans hid⟩

/-- Any row returned by `fetch_pending_items` comes from a PENDING database
row whose key columns the item copies. -/
theorem fetch_pending_mem {db : StateDB} {registry : List RegistryEntry}
    {n : Nat} {it : PendingItem} (h : it ∈ fetch_pending_items db registry n) :
    ∃ ws ∈ db, ws.status = PENDING ∧ it.workflow_state_id = ws.id
      ∧ it.item_id = ws.item_id ∧ it.step_name = ws.step_name := by
  unfold fetch_pending_items at h
  rcases List.mem_map.mp h with ⟨ws, hws, heq⟩
  have h1 := List.take_subset _ _ hws
  have h2 := (List.perm_insertionSort _ _).mem_iff.mp h1
  have h3 := List.mem_filter.mp h2
  refine ⟨ws, h3.1, by simpa using h3.2, ?_⟩
  cases hf : registry.find? (fun e => e.slug == ws.step_name) <;>
    (rw [hf] at heq; rw [← heq]; exact ⟨rfl, rfl, rfl⟩)

theorem fetch_pending_wsids {db : StateDB} {registry : List RegistryEntry}
    {n : Nat} :
    (fetch_pending_items db registry n).map (fun it => it.workflow_state_id)
      = ((List.insertionSort (fun a b => a.updated_at ≤ b.updated_at)
          (db.filter fun ws => decide (ws.status = PENDING))).take n).map
          (fun ws => ws.id) := by
  unfold fetch_pending_items
  rw [List.map_map]
  apply List.map_congr_left
  intro ws _
  cases hf : registry.find? (fun e => e.slug == ws.step_name) <;> simp [hf]

theorem fetch_pending_pairwise {db : StateDB} {registry : List RegistryEntry}
    {n : Nat} (h : (db.map fun ws => ws.id).Nodup) :
    (fetch_pending_items db registry n).Pairwise
      (fun a b => a.workflow_state_id ≠ b.workflow_state_id) := by
  have h1 : ((db.filter fun ws => decide (ws.status = PENDING)).map
      fun ws => ws.id).Nodup :=
    ((List.filter_sublist db).map _).nodup h
  have h2 : ((List.insertionSort (fun a b => a.updated_at ≤ b.updated_at)
      (db.filter fun ws => decide (ws.status = PENDING))).map
      fun ws => ws.id).Nodup :=
    (((List.perm_insertionSort _ _).map _).nodup_iff).mpr h1
  have h3 : (((List.insertionSort (fun a b => a.updated_at ≤ b.updated_at)
      (db.filter fun ws => decide (ws.status = PENDING))).take n).map
      fun ws => ws.id).Nodup :=
    ((List.take_sublist _ _).map _).nodup h2
  have h4 : ((fetch_pending_items db registry n).map
      fun it => it.workflow_state_id).Nodup := by
    rw [fetch_pending_wsids]; exact h3
  exact List.pairwise_map.mp h4

/-- Main induction for the dispatcher tick: when every fetched item points
at a PENDING row and the fetched ids are distinct, every item's claim
succeeds, so afterwards every such row is QUEUED, rows persist, the skipped
counter counts exactly the items with no sender function, and every
attempted Modal call names some fetched item's sender function. -/
theorem dispatch_foldl_spec (spawn_ok : String → Nat → Bool) (now : Nat) :
    ∀ (l : List PendingItem) (st : DispState),
      (∀ it ∈ l, ∀ ws ∈ st.db, ws.id = it.workflow_state_id →
        ws.status = PENDING) →
      (∀ it ∈ l, ∃ ws ∈ st.db, ws.id = it.workflow_state_id) →
      l.Pairwise (fun a b => a.workflow_state_id ≠ b.workflow_state_id) →
      (∀ it ∈ l, ∀ ws ∈ (l.foldl (dispatch_one spawn_ok now) st).db,
          ws.id = it.workflow_state_id → ws.status = QUEUED)
      ∧ (∀ it ∈ l, ∃ ws ∈ (l.foldl (dispatch_one spawn_ok now) st).db,
          ws.id = it.workflow_state_id)
      ∧ (l.foldl (dispatch_one spawn_ok now) st).res.skipped
          = st.res.skipped + l.countP (fun it => it.modal_sender_fn.isNone)
      ∧ (∀ c ∈ (l.foldl (dispatch_one spawn_ok now) st).calls,
          c ∈ st.calls
          ∨ ∃ it ∈ l, it.modal_sender_fn = some c.1 ∧ c.2 = it.item_id) := by
  intro l
  induction l with
  | nil =>
    intro st _ _ _
    exact ⟨fun it hit => absurd hit (List.not_mem_nil it),
      fun it hit => absurd hit (List.not_mem_nil it),
      by simp, fun c hc => Or.inl hc⟩
  | cons a l ih =>
    intro st hpend hex hpw
    have hpwa := (List.pairwise_cons.mp hpw).1
    have hpwl := (List.pairwise_cons.mp hpw).2
    rcases hex a (List.mem_cons_self a l) with ⟨wsa, hwsa, hida⟩
    have hpa : wsa.status = PENDING :=
      hpend a (List.mem_cons_self a l) wsa hwsa hida
    have hclaim : (update_state_to_queued st.db a.workflow_state_id now).2
        = true := by
      simp only [update_state_to_queued, List.any_eq_true, decide_eq_true_eq]
      exact ⟨wsa, hwsa, hida, hpa⟩
    have hst1db : (dispatch_one spawn_ok now st a).db =
        (update_state_to_queued st.db a.workflow_state_id now).1 :=
      dispatch_one_db
    have hpend1 : ∀ it ∈ l, ∀ ws ∈ (dispatch_one spawn_ok now st a).db,
        ws.id = it.workflow_state_id → ws.status = PENDING := by
      intro it hit ws' hmem hid
      rw [hst1db] at hmem
      rcases update_state_to_queued_mem.mp hmem with ⟨ws, hws, hcase⟩
      by_cases hc : ws.id = a.workflow_state_id ∧ ws.status = PENDING
      · rw [if_pos hc] at hcase
        have : ws'.id = ws.id := by rw [hcase]
        rw [this, hc.1] at hid
        exact absurd hid (hpwa it hit)
      · rw [if_neg hc] at hcase
        rw [hcase]
        exact hpend it (List.mem_cons_of_mem a hit) ws hws (hcase ▸ hid)
    have hex1 : ∀ it ∈ l, ∃ ws ∈ (dispatch_one spawn_ok now st a).db,
        ws.id = it.workflow_state_id := by
      intro it hit
      rcases hex it (List.mem_cons_of_mem a hit) with ⟨ws, hws, hid⟩
      rw [hst1db]
      rcases @update_id_present st.db a.workflow_state_id now ws hws with
        ⟨ws', hws', hid'⟩
      exact ⟨ws', hws', hid'.trans hid⟩
    rcases ih (dispatch_one spawn_ok now st a) hpend1 hex1 hpwl with
      ⟨ihq, ihex, ihskip, ihcalls⟩
    have hqA : ∀ ws ∈ (dispatch_one spawn_ok now st a).db,
        ws.id = a.workflow_state_id → ws.status = QUEUED := by
      intro ws' hmem hid
      rw [hst1db] at hmem
      rcases update_state_to_queued_mem.mp hmem with ⟨ws, hws, hcase⟩
      by_cases hc : ws.id = a.workflow_state_id ∧ ws.status = PENDING
      · rw [if_pos hc] at hcase; rw [hcase]
      · rw [if_neg hc] at hcase
        have hidw : ws.id = a.workflow_state_id := hcase ▸ hid
        exact absurd ⟨hidw, hpend a (List.mem_cons_self a l) ws hws hidw⟩ hc
    have hone := @dispatch_one_succ spawn_ok now st a hclaim
    refine ⟨?_, ?_, ?_, ?_⟩
    · intro it hit
      rcases List.mem_cons.mp hit with rfl | hit'
      · exact qued_foldl l _ hqA
      · exact ihq it hit'
    · intro it hit
      rcases List.mem_cons.mp hit with rfl | hit'
      · refine disp_id_present_foldl l _ ?_
        rw [hst1db]
        rcases @update_id_present st.db it.workflow_state_id now wsa hwsa
          with ⟨ws', hws', hid'⟩
        exact ⟨ws', hws', hid'.trans hida⟩
      · exact ihex it hit'
    · rw [List.foldl_cons] at *
      rw [ihskip, hone.1, List.countP_cons]
      have : (if (dispatch_to_modal spawn_ok a).1.status = DispatchStatus.skipped
              then 1 else 0) = (if a.modal_sender_fn.isNone = true then 1 else 0) := by
        cases hfn : a.modal_sender_fn with
        | none => simp [dispatch_to_modal, hfn]
        | some fn =>
          by_cases hsp : spawn_ok fn a.item_id = true <;>
            simp [dispatch_to_modal, hfn, hsp]
      rw [this]
      omega
    · intro c hc
      rcases ihcalls c hc with hc1 | ⟨it, hit, hfn⟩
      · rw [hone.2] at hc1
        rcases List.mem_append.mp hc1 with hc2 | hc2
        · exact Or.inl hc2
        · cases hfn : a.modal_sender_fn with
          | none => simp [dispatch_to_modal, hfn] at hc2
          | some fn =>
            have : c = (fn, a.item_id) := by
              by_cases hsp : spawn_ok fn a.item_id = true <;>
                (simp [dispatch_to_modal, hfn, hsp] at hc2; exact hc2)
            exact Or.inr ⟨a, List.mem_cons_self a l,
              by rw [this, hfn], by rw [this]⟩
      · exact Or.inr ⟨it, List.mem_cons_of_mem a hit, hfn⟩

/-- C9: a fetched item whose step has no `modal_sender_fn` in the registry
is claimed (its row ends the tick QUEUED and persists), reported as skipped
with reason `no_function_mapping` in the tick summary (the skipped counter
counts exactly the unroutable items), generates no Modal call (every
attempted call names some item's registered sender function), and is not
re-fetched by a later dispatcher tick (which only fetches PENDING rows). -/
theorem C9_claim_unroutable_left_queued
    (db : StateDB) (registry : List RegistryEntry)
    (spawn_ok : String → Nat → Bool) (now batch_size : Nat) (i : PendingItem)
    (hnodup : (db.map fun ws => ws.id).Nodup)
    (hi : i ∈ fetch_pending_items db registry batch_size)
    (hfn : i.modal_sender_fn = none) :
    (∀ ws ∈ (dispatch_pending_items db registry spawn_ok now batch_size).db,
        ws.id = i.workflow_state_id → ws.status = QUEUED)
    ∧ (∃ ws ∈ (dispatch_pending_items db registry spawn_ok now batch_size).db,
        ws.id = i.workflow_state_id)
    ∧ dispatch_to_modal spawn_ok i =
        ({ item_id := i.item_id, status := DispatchStatus.skipped,
           reason := some "no_function_mapping", function := none,
           error := none }, [])
    ∧ (dispatch_pending_items db registry spawn_ok now batch_size).res.skipped
        = (fetch_pending_items db registry batch_size).countP
            (fun it => it.modal_sender_fn.isNone)
    ∧ (∀ c ∈ (dispatch_pending_items db registry spawn_ok now batch_size).calls,
        ∃ it ∈ fetch_pending_items db registry batch_size,
          it.modal_sender_fn = some c.1 ∧ c.2 = it.item_id)
    ∧ (∀ k, ∀ it' ∈ fetch_pending_items
          (dispatch_pending_items db registry spawn_ok now batch_size).db
          registry k,
        it'.workflow_state_id ≠ i.workflow_state_id) := by
  have hpend0 : ∀ it ∈ fetch_pending_items db registry batch_size,
      ∀ ws ∈ db, ws.id = it.workflow_state_id → ws.status = PENDING := by
    intro it hit ws hws hid
    rcases fetch_pending_mem hit with ⟨wsP, hwsP, hstP, hidP, -, -⟩
    have : ws = wsP := ids_nodup_inj hnodup hws hwsP (hid.trans hidP)
    rw [this]; exact hstP
  have hex0 : ∀ it ∈ fetch_pending_items db registry batch_size,
      ∃ ws ∈ db, ws.id = it.workflow_state_id := by
    intro it hit
    rcases fetch_pending_mem hit with ⟨wsP, hwsP, -, hidP, -, -⟩
    exact ⟨wsP, hwsP, hidP.symm⟩
  have hpw := @fetch_pending_pairwise db registry batch_size hnodup
  have hspec := dispatch_foldl_spec spawn_ok now
    (fetch_pending_items db registry batch_size)
    { db := db,
      res := { processed := 0, dispatched := 0, queued := 0, skipped := 0,
               failed := 0 },
      calls := [] } hpend0 hex0 hpw
  have hqued : ∀ ws ∈ (dispatch_pending_items db registry spawn_ok now
      batch_size).db, ws.id = i.workflow_state_id → ws.status = QUEUED := by
    simp only [dispatch_pending_items]
    exact hspec.1 i hi
  refine ⟨hqued, ?_, ?_, ?_, ?_, ?_⟩
  · simp only [dispatch_pending_items]
    exact hspec.2.1 i hi
  · simp [dispatch_to_modal, hfn]
  · simp only [dispatch_pending_items]
    simpa using hspec.2.2.1
  · simp only [dispatch_pending_items]
    intro c hc
    rcases hspec.2.2.2 c hc with hc0 | hgood
    · exact absurd hc0 (List.not_mem_nil c)
    · exact hgood
  · intro k it' hit' heq
    rcases fetch_pending_mem hit' with ⟨ws, hws, hstP, hidP, -, -⟩
    have hid2 : ws.id = i.workflow_state_id := hidP.symm.trans heq
    have hq := hqued ws hws hid2
    rw [hq] at hstP
    exact WorkflowStatus.noConfusion hstP

/-- Witness for C9: one PENDING row whose step has no registry entry;
the tick counts it skipped. -/
theorem C9_claim_unroutable_left_queued_witness :
    (dispatch_pending_items [⟨0, 0, 0, "step_x", PENDING, 0, none, none⟩]
        [] (fun _ _ => true) 5 50).res.skipped
      = (fetch_pending_items [⟨0, 0, 0, "step_x", PENDING, 0, none, none⟩]
          [] 50).countP (fun it => it.modal_sender_fn.isNone) :=
  (C9_claim_unroutable_left_queued
    [⟨0, 0, 0, "step_x", PENDING, 0, none, none⟩] [] (fun _ _ => true) 5 50
    { workflow_state_id := 0, item_id := 0, step_name := "step_x",
      batch_id := 0, workflow_type := none, modal_sender_fn := none,
      modal_receiver_fn := none }
    (by decide) (by decide) rfl).2.2.2.1

/-- The upsert of `_update_state` (src/worker.py:71-86):
`INSERT INTO workflow_states (...) ON CONFLICT (batch_id, item_id, step_name)
DO UPDATE SET status = EXCLUDED.status, meta = EXCLUDED.meta,
updated_at = EXCLUDED.updated_at` — the conflicting row keeps its id and
`advanced_at`, a fresh row is inserted otherwise. -/
def upsert_workflow_state (db : StateDB) (batch_id item_id : Nat)
    (step_name : String) (status : WorkflowStatus) (meta : Option Meta)
    (newid now : Nat) : StateDB :=
  if db.any (matches_triple batch_id item_id step_name) then
    db.map fun ws =>
      if matches_triple batch_id item_id step_name ws then
        { ws with status := status, meta := meta, updated_at := now }
      else ws
  else
    db ++ [{ id := newid, batch_id := batch_id, item_id := item_id,
             step_name := step_name, status := status, updated_at := now,
             advanced_at := none, meta := meta }]

/-- `_update_state` (src/worker.py:45-89): look up the item's batch in
`batch_items` (raising — here `none` — when the item is missing), then
upsert the (batch, item, step) workflow state to the given status. -/
def _update_state (batch_items : List (Nat × Nat)) (db : StateDB)
    (item_id : Nat) (step_name : String) (status : WorkflowStatus)
    (meta : Option Meta) (newid now : Nat) : Option StateDB :=
  match batch_items.find? (fun p => p.1 == item_id) with
  | none => none
  | some p => some (upsert_workflow_state db p.2 item_id step_name status meta
      newid now)

/-- One row of the `company_workflow_states` table (entity-level tracking,
src/worker.py:593-649). -/
structure CompanyWorkflowState where
  id : Nat
  company_id : Nat
  workflow_slug : String
  status : WorkflowStatus
  meta : Option Meta
  created_at : Nat
  updated_at : Nat
deriving DecidableEq

/-- `_get_company_workflow_status` (src/worker.py:593-614):
`SELECT status FROM company_workflow_states WHERE company_id = %s AND
workflow_slug = %s`, or `none` when absent. -/
def _get_company_workflow_status (cws : List CompanyWorkflowState)
    (company_id : Nat) (workflow_slug : String) : Option WorkflowStatus :=
  (cws.find? fun c =>
    c.company_id == company_id && c.workflow_slug == workflow_slug).map
    fun c => c.status

/-- `_set_company_workflow_status` (src/worker.py:617-649): upsert on
(company_id, workflow_slug). -/
def _set_company_workflow_status (cws : List CompanyWorkflowState)
    (company_id : Nat) (workflow_slug : String) (status : WorkflowStatus)
    (meta : Option Meta) (newid now : Nat) : List CompanyWorkflowState :=
  if cws.any (fun c =>
      c.company_id == company_id && c.workflow_slug == workflow_slug) then
    cws.map fun c =>
      if c.company_id == company_id && c.workflow_slug == workflow_slug then
        { c with status := status, meta := meta, updated_at := now }
      else c
  else
    cws ++ [{ id := newid, company_id := company_id,
              workflow_slug := workflow_slug, status := status, meta := meta,
              created_at := now, updated_at := now }]

/-- `_get_company_id_for_item` (src/worker.py:314-334):
`SELECT company_id FROM normalized_people WHERE batch_item_id = %s`;
a missing row or a null company_id both yield `none`. -/
def _get_company_id_for_item (np : List (Nat × Option Nat)) (item_id : Nat) :
    Option Nat :=
  match np.find? (fun p => p.1 == item_id) with
  | some p => p.2
  | none => none

/-- The external collaborators of the Clay company sender, as oracles:
the `batch_items` and `normalized_people` tables, the workstream-slug
lookup, the client webhook configuration (`_get_client_config` restricted
to its `webhook_url` field), whether `normalized_companies` has the company
(`_get_company_data`), and whether the webhook POST succeeds. -/
structure SenderEnv where
  batch_items : List (Nat × Nat)
  normalized_people : List (Nat × Option Nat)
  workstream : Nat → Option String
  client_webhook : Nat → String → Option String → Option String
  company_data : Nat → Bool
  post_ok : String → Bool

/-- The return value of the sender (the result dict of
src/worker.py:1271-1384, reduced to its discriminating fields). -/
inductive SenderOutcome where
  | failed (error : String)
  | skipped (reason : String)
  | sent
deriving DecidableEq

/-- Final state of one sender run: workflow rows, company workflow rows,
the trace of webhook POSTs (url, item payload) and the outcome. -/
structure SenderResult where
  ws : StateDB
  cws : List CompanyWorkflowState
  posts : List (String × Nat)
  outcome : SenderOutcome
deriving DecidableEq

/-- `start_enrich_company_via_waterfall_in_clay` (src/worker.py:1233-1384),
the entity-coalescing async Sender: resolve the company; if the company's
entity workflow state is COMPLETED or IN_PROGRESS, mark the item's own
workflow state COMPLETED with a skip reason and return without any webhook
call; otherwise set the entity state IN_PROGRESS, resolve the webhook and
company data, POST to Clay, and set the item IN_PROGRESS (FAILED on any
error).  `none` models the uncaught `ValueError` of `_update_state`. -/
def start_enrich_company_via_waterfall_in_clay (env : SenderEnv)
    (ws : StateDB) (cws : List CompanyWorkflowState) (item_id : Nat)
    (workstream_slug : Option String) (fresh now : Nat) : Option SenderResult :=
  let step_name := "enrich_company_via_waterfall_in_clay"
  let wslug := match workstream_slug with
               | some s => some s
               | none => env.workstream item_id
  match _get_company_id_for_item env.normalized_people item_id with
  | none =>
    (_update_state env.batch_items ws item_id step_name FAILED
        (some [("error", "No company_id found - split step may not have run"),
               ("failed_at", toString now)]) fresh now).map fun ws' =>
      { ws := ws', cws := cws, posts := [],
        outcome := SenderOutcome.failed "No company_id found" }
  | some company_id =>
    match _get_company_workflow_status cws company_id step_name with
    | some COMPLETED =>
      (_update_state env.batch_items ws item_id step_name COMPLETED
          (some [("skipped", "company_already_enriched"),
                 ("company_id", toString company_id),
                 ("completed_at", toString now)]) fresh now).map fun ws' =>
        { ws := ws', cws := cws, posts := [],
          outcome := SenderOutcome.skipped "company_already_enriched" }
    | some IN_PROGRESS =>
      (_update_state env.batch_items ws item_id step_name COMPLETED
          (some [("skipped", "company_enrichment_in_progress"),
                 ("company_id", toString company_id),
                 ("completed_at", toString now)]) fresh now).map fun ws' =>
        { ws := ws', cws := cws, posts := [],
          outcome := SenderOutcome.skipped "company_enrichment_in_progress" }
    | _ =>
      let cws1 := _set_company_workflow_status cws company_id step_name
        IN_PROGRESS (some [("triggered_by_item_id", toString item_id),
                           ("started_at", toString now)]) (fresh + 1) now
      match env.client_webhook item_id step_name wslug with
      | none =>
        let cws2 := _set_company_workflow_status cws1 company_id step_name
          FAILED (some [("error", "No webhook_url configured"),
                        ("failed_at", toString now)]) (fresh + 2) now
        (_update_state env.batch_items ws item_id step_name FAILED
            (some [("error", "No webhook_url configured"),
                   ("company_id", toString company_id),
                   ("failed_at", toString now)]) fresh now).map fun ws' =>
          { ws := ws', cws := cws2, posts := [],
            outcome := SenderOutcome.failed "No webhook_url configured" }
      | some webhook_url =>
        if env.company_data company_id then
          if env.post_ok webhook_url then
            (_update_state env.batch_items ws item_id step_name IN_PROGRESS
                (some [("sent_at", toString now),
                       ("service", "clay_waterfall"), ("entity", "company"),
                       ("company_id", toString company_id),
                       ("webhook_url", webhook_url)]) fresh now).map fun ws' =>
              { ws := ws', cws := cws1, posts := [(webhook_url, item_id)],
                outcome := SenderOutcome.sent }
          else
            let cws2 := _set_company_workflow_status cws1 company_id step_name
              FAILED (some [("error", "clay webhook failed"),
                            ("failed_at", toString now)]) (fresh + 2) now
            (_update_state env.batch_items ws item_id step_name FAILED
                (some [("error", "clay webhook failed"),
                       ("company_id", toString company_id),
                       ("failed_at", toString now)]) fresh now).map fun ws' =>
              { ws := ws', cws := cws2, posts := [(webhook_url, item_id)],
                outcome := SenderOutcome.failed "clay webhook failed" }
        else
          let cws2 := _set_company_workflow_status cws1 company_id step_name
            FAILED (some [("error", "Company not found in normalized_companies"),
                          ("failed_at", toString now)]) (fresh + 2) now
          (_update_state env.batch_items ws item_id step_name FAILED
              (some [("error", "Company not found"),
                     ("company_id", toString company_id),
                     ("failed_at", toString now)]) fresh now).map fun ws' =>
            { ws := ws', cws := cws2, posts := [],
              outcome := SenderOutcome.failed "Company not found" }

/-- After the upsert, every row matching the triple carries the written
status and meta. -/
theorem upsert_sets {db : StateDB} {b i nid now : Nat} {s : String}
    {st : WorkflowStatus} {m : Option Meta} :
    ∀ ws' ∈ upsert_workflow_state db b i s st m nid now,
      matches_triple b i s ws' = true → ws'.status = st ∧ ws'.meta = m := by
  intro ws' hmem hmatch
  unfold upsert_workflow_state at hmem
  by_cases hany : db.any (matches_triple b i s) = true
  · rw [if_pos hany] at hmem
    rcases List.mem_map.mp hmem with ⟨ws, hws, heq⟩
    by_cases hc : matches_triple b i s ws = true
    · rw [if_pos hc] at heq; rw [← heq]; exact ⟨rfl, rfl⟩
    · rw [if_neg hc] at heq
      rw [heq] at hc
      exact absurd hmatch hc
  · rw [if_neg hany] at hmem
    rcases List.mem_append.mp hmem with hold | hnew
    · exact absurd (List.any_eq_true.mpr ⟨ws', hold, hmatch⟩) hany
    · rw [List.mem_singleton.mp hnew]; exact ⟨rfl, rfl⟩

/-- After the upsert, some row matches the triple. -/
theorem upsert_exists {db : StateDB} {b i nid now : Nat} {s : String}
    {st : WorkflowStatus} {m : Option Meta} :
    ∃ ws' ∈ upsert_workflow_state db b i s st m nid now,
      matches_triple b i s ws' = true := by
  unfold upsert_workflow_state
  by_cases hany : db.any (matches_triple b i s) = true
  · rw [if_pos hany]
    rcases List.any_eq_true.mp hany with ⟨ws, hws, hm⟩
    refine ⟨{ ws with status := st, meta := m, updated_at := now },
      List.mem_map.mpr ⟨ws, hws, by rw [if_pos hm]⟩, ?_⟩
    simp only [matches_triple, decide_eq_true_eq] at hm ⊢
    exact hm
  · rw [if_neg hany]
    refine ⟨_, List.mem_append_right _ (List.mem_singleton_self _), ?_⟩
    simp [matches_triple]

/-- C6 (amended): when the company's entity workflow state for the Clay
waterfall step is already COMPLETED, the sender marks the requesting item's
own workflow state COMPLETED with meta skipped="company_already_enriched",
returns a skipped result, performs no webhook POST and leaves the entity
rows untouched. -/
theorem C6_claim_entity_completed_skips
    (env : SenderEnv) (ws : StateDB) (cws : List CompanyWorkflowState)
    (item_id cid : Nat) (wsl : Option String) (fresh now : Nat) (pb : Nat × Nat)
    (hcid : _get_company_id_for_item env.normalized_people item_id = some cid)
    (hst : _get_company_workflow_status cws cid
      "enrich_company_via_waterfall_in_clay" = some COMPLETED)
    (hbi : env.batch_items.find? (fun p => p.1 == item_id) = some pb) :
    ∃ res, start_enrich_company_via_waterfall_in_clay env ws cws item_id wsl
        fresh now = some res
      ∧ res.outcome = SenderOutcome.skipped "company_already_enriched"
      ∧ res.posts = []
      ∧ res.cws = cws
      ∧ (∃ ws' ∈ res.ws,
          matches_triple pb.2 item_id "enrich_company_via_waterfall_in_clay" ws'
            = true)
      ∧ (∀ ws' ∈ res.ws,
          matches_triple pb.2 item_id "enrich_company_via_waterfall_in_clay" ws'
            = true →
          ws'.status = COMPLETED
          ∧ ws'.meta = some [("skipped", "company_already_enriched"),
                             ("company_id", toString cid),
                             ("completed_at", toString now)]) := by
  have heq : start_enrich_company_via_waterfall_in_clay env ws cws item_id wsl
      fresh now = some
      { ws := upsert_workflow_state ws pb.2 item_id
          "enrich_company_via_waterfall_in_clay" COMPLETED
          (some [("skipped", "company_already_enriched"),
                 ("company_id", toString cid),
                 ("completed_at", toString now)]) fresh now,
        cws := cws, posts := [],
        outcome := SenderOutcome.skipped "company_already_enriched" } := by
    simp [start_enrich_company_via_waterfall_in_clay, _update_state,
      hcid, hst, hbi]
  exact ⟨_, heq, rfl, rfl, rfl, upsert_exists, upsert_sets⟩

/-- Concrete sender environment: item 9 of batch 4 resolves to company 7,
whose entity state for the Clay step is already COMPLETED. -/
def c6_env : SenderEnv :=
  { batch_items := [(9, 4)],
    normalized_people := [(9, some 7)],
    workstream := fun _ => none,
    client_webhook := fun _ _ _ => none,
    company_data := fun _ => false,
    post_ok := fun _ => false }

/-- The requesting item's workflow row (claimed QUEUED by the dispatcher). -/
def c6_ws : StateDB :=
  [⟨2, 4, 9, "enrich_company_via_waterfall_in_clay", QUEUED, 1, none, none⟩]

/-- The entity row: company 7 already COMPLETED for the Clay step. -/
def c6_cws : List CompanyWorkflowState :=
  [⟨3, 7, "enrich_company_via_waterfall_in_clay", COMPLETED, none, 0, 0⟩]

/-- Counterexample for C6 as stated: on the concrete entity-already-done
run, the item's row is marked COMPLETED with meta
skipped="company_already_enriched" — no row carries the claimed meta value
skipped="entity_already_done". -/
theorem C6_claim_entity_done_meta_counterexample :
    ((start_enrich_company_via_waterfall_in_clay c6_env c6_ws c6_cws 9 none
        100 50).map fun res => res.ws.map fun w => (w.status, w.meta))
      = some [(COMPLETED,
          some [("skipped", "company_already_enriched"), ("company_id", "7"),
                ("completed_at", "50")])]
    ∧ ((start_enrich_company_via_waterfall_in_clay c6_env c6_ws c6_cws 9 none
        100 50).map fun res => res.ws.countP fun w =>
          match w.meta with
          | some m => decide (("skipped", "entity_already_done") ∈ m)
          | none => false) = some 0
    ∧ ("company_already_enriched" : String) ≠ "entity_already_done" := by
  decide

/-- Witness for the amended C6 at the concrete environment. -/
theorem C6_claim_entity_completed_skips_witness :
    ∃ res, start_enrich_company_via_waterfall_in_clay c6_env c6_ws c6_cws 9
        none 100 50 = some res
      ∧ res.outcome = SenderOutcome.skipped "company_already_enriched"
      ∧ res.posts = [] := by
  obtain ⟨res, h1, h2, h3, -, -, -⟩ :=
    C6_claim_entity_completed_skips c6_env c6_ws c6_cws 9 7 none 100 50 (9, 4)
      (by decide) (by decide) (by decide)
  exact ⟨res, h1, h2, h3⟩

/-- The transition table of the specification (§4.2, §8): the only allowed
single steps are PENDING→QUEUED, QUEUED→IN_PROGRESS and
IN_PROGRESS→{COMPLETED, FAILED}. -/
def spec_transition (a b : WorkflowStatus) : Prop :=
  (a = PENDING ∧ b = QUEUED) ∨ (a = QUEUED ∧ b = IN_PROGRESS)
  ∨ (a = IN_PROGRESS ∧ (b = COMPLETED ∨ b = FAILED))

instance (a b : WorkflowStatus) : Decidable (spec_transition a b) := by
  unfold spec_transition
  infer_instance

/-- Counterexample for C5 as stated: the entity-skip path of the sender
moves the item's workflow row directly from QUEUED to COMPLETED, a step the
specification's transition chain does not contain. -/
theorem C5_claim_transition_table_counterexample :
    (c6_ws.map fun w => w.status) = [QUEUED]
    ∧ ((start_enrich_company_via_waterfall_in_clay c6_env c6_ws c6_cws 9 none
        100 50).map fun res => res.ws.map fun w => w.status)
      = some [COMPLETED]
    ∧ ¬ spec_transition QUEUED COMPLETED := by
  decide

/-- C5 (amended): statuses are always drawn from the five-value enum (by
the schema type); the dispatcher claim changes a row only from PENDING to
QUEUED, the sequencer's spawn creates only PENDING rows and its
mark-advanced never changes any status; but the sender/receiver upsert
(`_update_state`) writes the given status unconditionally regardless of the
current one, so steps outside the chain
PENDING→QUEUED→IN_PROGRESS→{COMPLETED,FAILED} occur (for example
QUEUED→COMPLETED on an entity-level skip). -/
theorem C5_claim_status_transitions
    : (∀ (db : StateDB) (w now : Nat),
        ∀ ws' ∈ (update_state_to_queued db w now).1,
          ws' ∈ db ∨ ∃ ws ∈ db, ws.status = PENDING
            ∧ ws' = { ws with status := QUEUED, updated_at := now })
    ∧ (∀ (db : StateDB) (i b newid now : Nat) (s : String),
        ∀ ws' ∈ (spawn_next_step db i b s newid now).1,
          ws' ∈ db ∨ ws'.status = PENDING)
    ∧ (∀ (db : StateDB) (w now : Nat),
        ∀ ws' ∈ (mark_state_as_advanced db w now).1,
          ∃ ws ∈ db, ws'.status = ws.status)
    ∧ (∀ (db : StateDB) (b i newid now : Nat) (s : String)
        (st : WorkflowStatus) (m : Option Meta),
        ∀ ws' ∈ upsert_workflow_state db b i s st m newid now,
          ws' ∈ db ∨ ws'.status = st) := by
  refine ⟨?_, ?_, ?_, ?_⟩
  · intro db w now ws' hmem
    rcases update_state_to_queued_mem.mp hmem with ⟨ws, hws, heq⟩
    by_cases hc : ws.id = w ∧ ws.status = PENDING
    · rw [if_pos hc] at heq
      exact Or.inr ⟨ws, hws, hc.2, heq⟩
    · rw [if_neg hc] at heq
      rw [heq]
      exact Or.inl hws
  · intro db i b newid now s ws' hmem
    rcases spawn_mem_cases ws' hmem with hold | hnew
    · exact Or.inl hold
    · rw [hnew]; exact Or.inr rfl
  · intro db w now ws' hmem
    rcases mark_state_as_advanced_mem.mp hmem with ⟨ws, hws, heq⟩
    by_cases hc : ws.id = w ∧ ws.advanced_at = none
    · rw [if_pos hc] at heq; rw [heq]; exact ⟨ws, hws, rfl⟩
    · rw [if_neg hc] at heq; rw [heq]; exact ⟨ws, hws, rfl⟩
  · intro db b i newid now s st m ws' hmem
    unfold upsert_workflow_state at hmem
    by_cases hany : db.any (matches_triple b i s) = true
    · rw [if_pos hany] at hmem
      rcases List.mem_map.mp hmem with ⟨ws, hws, heq⟩
      by_cases hc : matches_triple b i s ws = true
      · rw [if_pos hc] at heq; rw [← heq]; exact Or.inr rfl
      · rw [if_neg hc] at heq; rw [← heq]; exact Or.inl hws
    · rw [if_neg hany] at hmem
      rcases List.mem_append.mp hmem with hold | hnew
      · exact Or.inl hold
      · rw [List.mem_singleton.mp hnew]; exact Or.inr rfl

/-- Witness for the amended C5: the upsert component at a concrete row. -/
theorem C5_claim_status_transitions_witness :
    sampleRowPending ∈ ([sampleRowPending] : StateDB)
    ∨ sampleRowPending.status = COMPLETED :=
  C5_claim_status_transitions.2.2.2 [sampleRowPending] 5 6 7 8 "step_b"
    COMPLETED none sampleRowPending (by decide)

end Orchestration
